import Mathlib

/-!
Verification of the darktable shortcut engine (src/gui/accelerators.c).

This file gives a shallow embedding of the binding-store data model and the
operations of the shortcut subsystem: the ordering comparator
(shortcut_compare_func), store insertion with conflict resolution
(insert_shortcut, add_shortcut, remove_shortcut), the persistence codec
(dt_shortcuts_save / dt_shortcuts_load), the key press/release gesture state
machine (dt_shortcut_key_press / dt_shortcut_key_release / _key_up_delayed),
the instance-resolution loop of process_mapping, and the scroll branch of
dt_shortcut_dispatcher.  Machine integers are modelled as Nat / Int (the C
values involved are small and non-negative except where noted); GLib/GTK
collaborators (accelerator name parsing, the confirmation dialog, timers) are
modelled as explicit parameters or as instrumented outputs.
-/

namespace Accel

/-- Modelled from the spec: the flag bitmask of a shortcut
(dt_shortcut_flag_t in gui/accelerators.h, which is not part of the provided
sources).  The spec (section 3) lists the flag groups: press duration
double/triple/long, button identity left/middle/right, click duration
double/triple/long, and the direction up/down split marker.  The values are
distinct single bits, with PRESS_TRIPLE = 2 * PRESS_DOUBLE and
MIDDLE/RIGHT = LEFT shifted by one/two, as required by the accumulator
arithmetic in dt_shortcut_key_press (flags += PRESS_DOUBLE) and by the
button-bit shift in dt_shortcut_dispatcher (BUTTON_LEFT << (button - 1)). -/
def DT_SHORTCUT_FLAG_PRESS_DOUBLE : Nat := 1

/-- Modelled from the spec: see DT_SHORTCUT_FLAG_PRESS_DOUBLE. -/
def DT_SHORTCUT_FLAG_PRESS_TRIPLE : Nat := 2

/-- Modelled from the spec: see DT_SHORTCUT_FLAG_PRESS_DOUBLE. -/
def DT_SHORTCUT_FLAG_PRESS_LONG : Nat := 4

/-- Modelled from the spec: see DT_SHORTCUT_FLAG_PRESS_DOUBLE. -/
def DT_SHORTCUT_FLAG_BUTTON_LEFT : Nat := 8

/-- Modelled from the spec: see DT_SHORTCUT_FLAG_PRESS_DOUBLE. -/
def DT_SHORTCUT_FLAG_BUTTON_MIDDLE : Nat := 16

/-- Modelled from the spec: see DT_SHORTCUT_FLAG_PRESS_DOUBLE. -/
def DT_SHORTCUT_FLAG_BUTTON_RIGHT : Nat := 32

/-- Modelled from the spec: see DT_SHORTCUT_FLAG_PRESS_DOUBLE. -/
def DT_SHORTCUT_FLAG_CLICK_DOUBLE : Nat := 64

/-- Modelled from the spec: see DT_SHORTCUT_FLAG_PRESS_DOUBLE. -/
def DT_SHORTCUT_FLAG_CLICK_TRIPLE : Nat := 128

/-- Modelled from the spec: see DT_SHORTCUT_FLAG_PRESS_DOUBLE. -/
def DT_SHORTCUT_FLAG_CLICK_LONG : Nat := 256

/-- Modelled from the spec: see DT_SHORTCUT_FLAG_PRESS_DOUBLE. -/
def DT_SHORTCUT_FLAG_DIR_UP : Nat := 512

/-- Modelled from the spec: see DT_SHORTCUT_FLAG_PRESS_DOUBLE. -/
def DT_SHORTCUT_FLAG_DIR_DOWN : Nat := 1024

/-- accelerators.c lines 74-87: mask of the press-duration flags. -/
def DT_SHORTCUT_FLAG_PRESS_MASK : Nat :=
  DT_SHORTCUT_FLAG_PRESS_TRIPLE ||| DT_SHORTCUT_FLAG_PRESS_DOUBLE ||| DT_SHORTCUT_FLAG_PRESS_LONG

/-- accelerators.c lines 74-87: mask of the button-identity flags. -/
def DT_SHORTCUT_FLAG_BUTTON_MASK : Nat :=
  DT_SHORTCUT_FLAG_BUTTON_LEFT ||| DT_SHORTCUT_FLAG_BUTTON_MIDDLE ||| DT_SHORTCUT_FLAG_BUTTON_RIGHT

/-- accelerators.c lines 74-87: mask of the click-duration flags. -/
def DT_SHORTCUT_FLAG_CLICK_MASK : Nat :=
  DT_SHORTCUT_FLAG_CLICK_TRIPLE ||| DT_SHORTCUT_FLAG_CLICK_DOUBLE ||| DT_SHORTCUT_FLAG_CLICK_LONG

/-- accelerators.c lines 74-87: mask of the two direction flags. -/
def DT_SHORTCUT_FLAG_DIR_MASK : Nat :=
  DT_SHORTCUT_FLAG_DIR_UP ||| DT_SHORTCUT_FLAG_DIR_DOWN

/-- Move types, in the index order of the move_string table
(accelerators.c lines 191-202): the enum value is the index of the name. -/
def DT_SHORTCUT_MOVE_NONE : Nat := 0

def DT_SHORTCUT_MOVE_SCROLL : Nat := 1

def DT_SHORTCUT_MOVE_PAN : Nat := 2

def DT_SHORTCUT_MOVE_HORIZONTAL : Nat := 3

def DT_SHORTCUT_MOVE_VERTICAL : Nat := 4

def DT_SHORTCUT_MOVE_DIAGONAL : Nat := 5

def DT_SHORTCUT_MOVE_SKEW : Nat := 6

/-- Modelled from the spec: action type tags (common/action.h is not part of
the provided sources).  The spec (section 3) lists the variant set
Section, Global, View, Library, ImageOperation, Category,
Widget(Slider|Combo|Toggle), Preset, Closure, KeyPressed.  Only distinctness
of the tags matters to the embedded code paths. -/
def DT_ACTION_TYPE_SECTION : Nat := 1

/-- Modelled from the spec: see DT_ACTION_TYPE_SECTION. -/
def DT_ACTION_TYPE_IOP : Nat := 10

/-- Modelled from the spec: see DT_ACTION_TYPE_SECTION. -/
def DT_ACTION_TYPE_LIB : Nat := 11

/-- Modelled from the spec: see DT_ACTION_TYPE_SECTION. -/
def DT_ACTION_TYPE_SLIDER : Nat := 20

/-- Modelled from the spec: see DT_ACTION_TYPE_SECTION. -/
def DT_ACTION_TYPE_COMBO : Nat := 21

/-- Modelled from the spec: see DT_ACTION_TYPE_SECTION. -/
def DT_ACTION_TYPE_TOGGLE : Nat := 22

/-- Modelled from the spec: see DT_ACTION_TYPE_SECTION. -/
def DT_ACTION_TYPE_KEY_PRESSED : Nat := 30

/-- dt_shortcut_t (accelerators.c lines 34-72).  Actions are identified by a
numeric id (the C code only compares action pointers for identity here);
id 0 plays the role of the null pointer.  The speed float is modelled as an
exact rational.  The C field named instance is called inst here. -/
structure DtShortcut where
  views : Nat := 0
  key_device : Nat := 0
  key : Nat := 0
  mods : Nat := 0
  flags : Nat := 0
  move_device : Nat := 0
  move : Nat := 0
  action : Nat := 0
  element : Nat := 0
  effect : Int := 0
  speed : Rat := 1
  inst : Int := 0
deriving DecidableEq, Repr

/-- shortcut_compare_func (accelerators.c lines 220-249).  The C expression
(a->flags ^ b->flags) & ~DT_SHORTCUT_FLAG_DIR_MASK is nonzero exactly when
the xor of the flags is not contained in the direction mask, written here as
xor &&& DIR_MASK differing from xor.  The C condition
!(a->flags ^ b->flags ^ DT_SHORTCUT_FLAG_DIR_MASK) is the triple xor being
zero. -/
def shortcut_compare_func (a b : DtShortcut) (active_view : Nat) : Int :=
  let a_in_view : Int := if a.views ≠ 0 then ((a.views &&& active_view : Nat) : Int) else -1
  let b_in_view : Int := if b.views ≠ 0 then ((b.views &&& active_view : Nat) : Int) else -1
  if a_in_view ≠ b_in_view then b_in_view - a_in_view
  else if a.key_device ≠ b.key_device then (a.key_device : Int) - (b.key_device : Int)
  else if a.key ≠ b.key then (a.key : Int) - (b.key : Int)
  else if (a.flags ^^^ b.flags) &&& DT_SHORTCUT_FLAG_DIR_MASK ≠ a.flags ^^^ b.flags then
    (a.flags : Int) - (b.flags : Int)
  else if a.move_device ≠ b.move_device then (a.move_device : Int) - (b.move_device : Int)
  else if a.move ≠ b.move then (a.move : Int) - (b.move : Int)
  else if a.mods ≠ b.mods then (a.mods : Int) - (b.mods : Int)
  else if a.flags ^^^ b.flags ^^^ DT_SHORTCUT_FLAG_DIR_MASK = 0 then
    (a.flags : Int) - (b.flags : Int)
  else 0

/-- _shortcut_is_move (accelerators.c lines 388-391). -/
def shortcut_is_move (s : DtShortcut) : Bool :=
  (s.move_device ≠ 0 ∨ s.move ≠ 0) ∧ s.flags &&& DT_SHORTCUT_FLAG_DIR_MASK = 0

/-- Clearing the direction bits, the C expression flags &= ~DIR_MASK:
subtracting the direction part of the flags. -/
def clearDir (f : Nat) : Nat := f ^^^ (f &&& DT_SHORTCUT_FLAG_DIR_MASK)

/-- add_shortcut (accelerators.c lines 648-683), restricted to the
g_sequence_insert_sorted call: the new record is placed before the first
existing record that compares greater than it.  The GtkTreeStore mirroring
and the KEY_PRESSED accelerator write-back act on external UI state and are
not part of the store. -/
def add_shortcut (view : Nat) : List DtShortcut → DtShortcut → List DtShortcut
  | [], s => [s]
  | x :: xs, s =>
      if shortcut_compare_func s x view < 0 then s :: x :: xs
      else x :: add_shortcut view xs s

/-- Helper for remove_shortcut: clear the direction bits of the record at
index j in place (the sibling mutation o->flags &= ~DIR_MASK at
accelerators.c line 642). -/
def clearDirAt (store : List DtShortcut) (j : Nat) : List DtShortcut :=
  match store.get? j with
  | none => store
  | some o => store.set j { o with flags := clearDir o.flags }

/-- remove_shortcut (accelerators.c lines 629-646), on the store as a list
with the target given by its index.  If the removed record carries a
direction bit, the record is first un-directioned in place, its split
sibling is located (the previous record if it still compares equal under the
record's own views mask, otherwise the next one) and the sibling's direction
bits are cleared; then the record is removed.  The GtkTreeStore mirroring is
external UI state.  Out-of-range indices leave the store unchanged (the C
code is never called with one). -/
def remove_shortcut (store : List DtShortcut) (i : Nat) : List DtShortcut :=
  match store.get? i with
  | none => store
  | some s =>
      if s.flags &&& DT_SHORTCUT_FLAG_DIR_MASK ≠ 0 then
        let s1 : DtShortcut := { s with flags := clearDir s.flags }
        let store1 := store.set i s1
        let oIdx : Nat :=
          if i = 0 then i + 1
          else
            match store1.get? (i - 1) with
            | none => i + 1
            | some o => if shortcut_compare_func s1 o s1.views ≠ 0 then i + 1 else i - 1
        (clearDirAt store1 oIdx).eraseIdx i
      else store.eraseIdx i

/-- Effect sentinel for move shortcuts (accelerators.c line 54). -/
def DT_SHORTCUT_EFFECT_DEFAULT_MOVE : Int := -1

/-- Effect default for key shortcuts (accelerators.c line 55). -/
def DT_SHORTCUT_EFFECT_DEFAULT_KEY : Int := 0

/-- Result of insert_shortcut: the C return value, the store after the call,
and (as instrumentation of the external confirmation collaborator) the
number of yes/no dialogs that were shown. -/
structure InsertResult where
  ok : Bool
  store : List DtShortcut
  prompts : Nat
deriving DecidableEq, Repr

/-- The clash-scanning do-while loop inside insert_shortcut (accelerators.c
lines 738-808), walking the run of store entries that compare equal to the
candidate s under the active view, starting at index i.  An entry bound to
the same action triggers one of the three resolution branches (split into an
up/down pair, reset the stored settings, or remove the identical binding)
and makes the whole function return; an entry whose views overlap the
candidate's real views is removed when remove_existing is set, otherwise its
action is recorded in the clash list.  Dialogs are modelled by consuming the
head of the answers list; dialogs are only shown when confirm is set, exactly
as in the C short-circuit conditions.  Sum.inl carries an immediate function
return, Sum.inr the state when the scan runs off the equal run.  The loop
terminates because store.length - i shrinks at every step (a removal keeps i
but shortens the store, otherwise i grows); the recursion is driven by a fuel
argument bounding that measure, so that every step either consumes fuel or
stops, and run_phase hands it store.length - i + 1 fuel, which the lemma
scan_clashes_fuel_irrelevant below shows is enough: the fuel-exhausted
fallback is never reached. -/
def scan_clashes (confirm removeEx : Bool) (view real_views : Nat) (s : DtShortcut) :
    Nat → List DtShortcut → Nat → List Nat → List Bool →
    Nat → InsertResult ⊕ (List DtShortcut × List Nat × List Bool × Nat)
  | 0, store, _, labels, answers, prompts => Sum.inr (store, labels, answers, prompts)
  | fuel + 1, store, i, labels, answers, prompts =>
  match store.get? i with
  | none => Sum.inr (store, labels, answers, prompts)
  | some e =>
    if shortcut_compare_func s e view ≠ 0 then Sum.inr (store, labels, answers, prompts)
    else if e.action = s.action then
      if shortcut_is_move e ∧ e.effect ≠ DT_SHORTCUT_EFFECT_DEFAULT_MOVE then
        -- offer to create separate shortcuts for up and down move
        let step : Bool × List Bool × Nat :=
          if confirm then (answers.headD false, answers.tail, prompts + 1)
          else (true, answers, prompts)
        if step.1 then
          let e1 : DtShortcut := { e with flags := e.flags |||
            (if s.flags &&& DT_SHORTCUT_FLAG_DIR_UP ≠ 0 then DT_SHORTCUT_FLAG_DIR_DOWN
             else DT_SHORTCUT_FLAG_DIR_UP) }
          let s1 : DtShortcut :=
            if s.effect = DT_SHORTCUT_EFFECT_DEFAULT_MOVE then
              { s with effect := DT_SHORTCUT_EFFECT_DEFAULT_KEY }
            else s
          Sum.inl ⟨true, add_shortcut view (store.set i e1) s1, step.2.2⟩
        else Sum.inl ⟨false, store, step.2.2⟩
      else if e.element ≠ s.element ∨ e.effect ≠ s.effect ∨ e.speed ≠ s.speed ∨
              e.inst ≠ s.inst then
        -- offer to reset the settings of the shortcut
        let step : Bool × List Bool × Nat :=
          if confirm then (answers.headD false, answers.tail, prompts + 1)
          else (true, answers, prompts)
        if step.1 then
          Sum.inl ⟨false, store.set i { e with element := s.element, effect := s.effect,
                                               speed := s.speed, inst := s.inst }, step.2.2⟩
        else Sum.inl ⟨false, store, step.2.2⟩
      else
        -- identical binding already exists: offer to remove it
        if confirm then
          if answers.headD false then Sum.inl ⟨false, remove_shortcut store i, prompts + 1⟩
          else Sum.inl ⟨false, store, prompts + 1⟩
        else Sum.inl ⟨false, store, prompts⟩
    else if e.views &&& real_views ≠ 0 then
      if removeEx then
        scan_clashes confirm removeEx view real_views s fuel (remove_shortcut store i) i labels
          answers prompts
      else
        scan_clashes confirm removeEx view real_views s fuel store (i + 1) (labels ++ [e.action])
          answers prompts
    else scan_clashes confirm removeEx view real_views s fuel store (i + 1) labels answers prompts

/-- One phase of the lookup: g_sequence_lookup followed by the rewind to the
first entry of the equal run (accelerators.c lines 730-736), then the scan.
On a store sorted by the comparator this is the first index, from the front,
comparing equal to s. -/
def run_phase (confirm removeEx : Bool) (view real_views : Nat) (s : DtShortcut)
    (store : List DtShortcut) (labels : List Nat) (answers : List Bool) (prompts : Nat) :
    InsertResult ⊕ (List DtShortcut × List Nat × List Bool × Nat) :=
  match store.findIdx? (fun e => shortcut_compare_func s e view == 0) with
  | none => Sum.inr (store, labels, answers, prompts)
  | some i => scan_clashes confirm removeEx view real_views s (store.length - i + 1) store i
      labels answers prompts

/-- The outer do-while of insert_shortcut (accelerators.c lines 724-836):
two lookup phases (the candidate's real views, then the views xored with the
active view, line 811), after which a non-empty clash list raises the
remove-these-existing-shortcuts dialog.  A yes answer repeats the pass with
remove_existing set; clash labels are only collected when remove_existing is
clear, and the repeat pass always has it set, so the loop runs at most twice
and fuel 2 suffices (the fuel-exhausted fallback is unreachable from
insert_shortcut). -/
def insert_loop (view : Nat) (confirm : Bool) :
    Nat → Bool → DtShortcut → Nat → List DtShortcut → List Bool → Nat → InsertResult
  | 0, _, _, _, store, _, prompts => ⟨false, store, prompts⟩
  | fuel + 1, removeEx, s, real_views, store, answers, prompts =>
    match run_phase confirm removeEx view real_views { s with views := real_views } store []
        answers prompts with
    | Sum.inl r => r
    | Sum.inr (store1, labels1, answers1, prompts1) =>
      match run_phase confirm removeEx view real_views
          { s with views := real_views ^^^ view } store1 labels1 answers1 prompts1 with
      | Sum.inl r => r
      | Sum.inr (store2, labels2, answers2, prompts2) =>
        if labels2 ≠ [] then
          if answers2.headD false then
            insert_loop view confirm fuel true s real_views store2 answers2.tail (prompts2 + 1)
          else ⟨false, store2, prompts2 + 1⟩
        else
          ⟨true, add_shortcut view store2 { s with views := real_views,
                                                   flags := clearDir s.flags }, prompts2⟩

/-- insert_shortcut (accelerators.c lines 699-843).  The mapping from an
action to its applicable views (find_views, lines 531-598) and to its type
tag are environment functions, since both are determined by the externally
owned action registry; the active view is the view parameter.  The dialog
answers arrive as a list of booleans; the prompts field of the result counts
the dialogs shown.  The write-back of the possibly dir-cleared flags into the
caller's record (line 841) only affects the caller's scratch value and is
not modelled. -/
def insert_shortcut (viewsOf typeOf : Nat → Nat) (view : Nat) (confirm : Bool)
    (answers : List Bool) (store : List DtShortcut) (shortcut : DtShortcut) : InsertResult :=
  if shortcut.action ≠ 0 ∧ typeOf shortcut.action = DT_ACTION_TYPE_KEY_PRESSED ∧
     (shortcut.key_device ≠ 0 ∨ shortcut.move_device ≠ 0 ∨
      shortcut.move ≠ DT_SHORTCUT_MOVE_NONE ∨
      shortcut.flags &&& (DT_SHORTCUT_FLAG_PRESS_MASK ||| DT_SHORTCUT_FLAG_BUTTON_MASK) ≠ 0) then
    ⟨false, store, 0⟩
  else
    let s : DtShortcut := { shortcut with views := viewsOf shortcut.action }
    insert_loop view confirm 2 (!confirm) s s.views store answers 0

/-! ### Persistence codec (dt_shortcuts_save / dt_shortcuts_load) -/

/-- GDK modifier mask (external GDK library constant). -/
def GDK_SHIFT_MASK : Nat := 1

/-- GDK modifier mask (external GDK library constant). -/
def GDK_CONTROL_MASK : Nat := 4

/-- GDK modifier mask (external GDK library constant). -/
def GDK_MOD1_MASK : Nat := 8

/-- GDK modifier mask (external GDK library constant). -/
def GDK_MOD2_MASK : Nat := 16

/-- GDK modifier mask (external GDK library constant). -/
def GDK_SUPER_MASK : Nat := 67108864

/-- GDK modifier mask (external GDK library constant). -/
def GDK_HYPER_MASK : Nat := 134217728

/-- GDK modifier mask (external GDK library constant). -/
def GDK_META_MASK : Nat := 268435456

/-- modifier_string (accelerators.c lines 204-216). -/
def modifier_string : List (Nat × String) :=
  [(GDK_SHIFT_MASK, "shift"), (GDK_CONTROL_MASK, "ctrl"), (GDK_MOD1_MASK, "alt"),
   (GDK_MOD2_MASK, "cmd"), (GDK_SUPER_MASK, "super"), (GDK_HYPER_MASK, "hyper"),
   (GDK_META_MASK, "meta")]

/-- move_string (accelerators.c lines 191-202). -/
def move_string : List String :=
  ["", "scroll", "pan", "horizontal", "vertical", "diagonal", "skew",
   "leftright", "updown", "pgupdown"]

/-- dt_shortcut_effect_value (accelerators.c lines 89-96). -/
def dt_shortcut_effect_value : List String :=
  ["reset", "up", "down", "top", "bottom", "edit"]

/-- dt_shortcut_effect_selection (accelerators.c lines 97-104). -/
def dt_shortcut_effect_selection : List String :=
  ["reset", "previous", "next", "first", "last", "popup"]

/-- dt_shortcut_effect_toggle (accelerators.c lines 105-113). -/
def dt_shortcut_effect_toggle : List String :=
  ["toggle", "on", "off", "ctrl-toggle", "ctrl-on", "right-toggle", "right-on"]

/-- dt_shortcut_effect_activate (accelerators.c lines 114-118). -/
def dt_shortcut_effect_activate : List String :=
  ["activate", "ctrl-activate", "right-activate"]

/-- dt_shortcut_effect_instance (accelerators.c lines 119-126). -/
def dt_shortcut_effect_instance : List String :=
  ["new", "move up", "move down", "duplicate", "delete", "rename"]

/-- dt_shortcut_effect_presets (accelerators.c lines 127-135). -/
def dt_shortcut_effect_presets : List String :=
  ["show", "previous", "next", "store", "edit", "delete", "preferences"]

/-- dt_shortcut_element_slider (accelerators.c lines 143-149). -/
def dt_shortcut_element_slider : List (String × List String) :=
  [("value", dt_shortcut_effect_value), ("min", dt_shortcut_effect_value),
   ("max", dt_shortcut_effect_value), ("zoom", dt_shortcut_effect_value),
   ("button", dt_shortcut_effect_toggle)]

/-- dt_shortcut_element_combo (accelerators.c lines 150-153). -/
def dt_shortcut_element_combo : List (String × List String) :=
  [("selection", dt_shortcut_effect_selection), ("button", dt_shortcut_effect_toggle)]

/-- dt_shortcut_element_toggle (accelerators.c lines 154-156). -/
def dt_shortcut_element_toggle : List (String × List String) :=
  [("button", dt_shortcut_effect_toggle)]

/-- dt_shortcut_element_iop (accelerators.c lines 163-170). -/
def dt_shortcut_element_iop : List (String × List String) :=
  [("focus", dt_shortcut_effect_toggle), ("enable", dt_shortcut_effect_toggle),
   ("expand", dt_shortcut_effect_toggle), ("instance", dt_shortcut_effect_instance),
   ("reset", dt_shortcut_effect_activate), ("presets", dt_shortcut_effect_presets)]

/-- dt_shortcut_element_lib (accelerators.c lines 171-175). -/
def dt_shortcut_element_lib : List (String × List String) :=
  [("show", dt_shortcut_effect_toggle), ("reset", dt_shortcut_effect_activate),
   ("presets", dt_shortcut_effect_presets)]

/-- _action_find_elements (accelerators.c lines 845-864), with the action's
type tag supplied by the environment. -/
def action_find_elements (typeOf : Nat → Nat) (a : Nat) :
    Option (List (String × List String)) :=
  if typeOf a = DT_ACTION_TYPE_SLIDER then some dt_shortcut_element_slider
  else if typeOf a = DT_ACTION_TYPE_COMBO then some dt_shortcut_element_combo
  else if typeOf a = DT_ACTION_TYPE_TOGGLE then some dt_shortcut_element_toggle
  else if typeOf a = DT_ACTION_TYPE_IOP then some dt_shortcut_element_iop
  else if typeOf a = DT_ACTION_TYPE_LIB then some dt_shortcut_element_lib
  else none

/-- The external collaborators of the persistence codec, as functions: the
GTK accelerator stringify/parse pair (gtk_accelerator_name and
gtk_accelerator_parse), the action registry (full-path rendering of an
action, _action_full_label, and path resolution, dt_action_locate - the
registry itself is owned by the UI layer, so the codec is proved against
any resolution function), the action type and view tables, the active view,
and the libc printf/sscanf renderings of signed integers and of the speed
float.  No external input drivers are registered, matching a system where
only the built-in keyboard/mouse device exists. -/
structure CodecEnv where
  keyName : Nat → String
  keyParse : String → Nat × Nat
  pathOf : Nat → String
  locateAction : String → Option Nat
  typeOf : Nat → Nat
  viewsOf : Nat → Nat
  view : Nat
  intName : Int → String
  intParse : String → Int
  speedName : Rat → String
  speedParse : String → Rat

/-- A line of the shortcutsrc file, already cut at the semicolons by strtok
(which produces no empty tokens): the tokens before the assignment sign and
the tokens after it.  A line with no assignment sign is kept as raw text. -/
inductive SCLine where
  | noAssign (raw : String)
  | assign (pre post : List String)
deriving DecidableEq, Repr

/-- The serialization half of _shortcut_key_move_name (accelerators.c lines
311-386, display false): the bare accelerator name, or None for key 0,
followed by one token per set modifier in table order.  A non-default device
finds no registered driver and yields the Unknown driver placeholder. -/
def shortcut_key_name_tokens (env : CodecEnv) (id key mods : Nat) : List String :=
  (if id = 0 then [if key ≠ 0 then env.keyName key else "None"]
   else ["Unknown driver"]) ++
  (modifier_string.filter (fun p => mods &&& p.1 ≠ 0)).map Prod.snd

/-- The move-name variant of _shortcut_key_move_name (mods = DT_MOVE_NAME):
the move_string entry of the move code, no modifier tokens. -/
def shortcut_move_name_token (id move : Nat) : String :=
  if id = 0 then move_string.getD move "" else "Unknown driver"

/-- The per-shortcut body of dt_shortcuts_save (accelerators.c lines
1539-1587): key name and modifiers; the move name and the direction token
when a move component is present; the press, button and click flag tokens;
then after the sign the action path, the element name when nonzero, the
effect name when above the default for the shortcut's kind, the instance
token and the speed token. -/
def save_shortcut_line (env : CodecEnv) (s : DtShortcut) : SCLine :=
  let elements := (action_find_elements env.typeOf s.action).getD []
  SCLine.assign
    (shortcut_key_name_tokens env s.key_device s.key s.mods ++
     (if s.move_device ≠ 0 ∨ s.move ≠ 0 then
        [shortcut_move_name_token s.move_device s.move] ++
        (if s.flags &&& DT_SHORTCUT_FLAG_DIR_MASK ≠ 0 then
           [if s.flags &&& DT_SHORTCUT_FLAG_DIR_UP ≠ 0 then "up" else "down"]
         else [])
      else []) ++
     (if s.flags &&& DT_SHORTCUT_FLAG_PRESS_DOUBLE ≠ 0 then ["double"] else []) ++
     (if s.flags &&& DT_SHORTCUT_FLAG_PRESS_TRIPLE ≠ 0 then ["triple"] else []) ++
     (if s.flags &&& DT_SHORTCUT_FLAG_PRESS_LONG ≠ 0 then ["long"] else []) ++
     (if s.flags &&& DT_SHORTCUT_FLAG_BUTTON_LEFT ≠ 0 then ["left"] else []) ++
     (if s.flags &&& DT_SHORTCUT_FLAG_BUTTON_MIDDLE ≠ 0 then ["middle"] else []) ++
     (if s.flags &&& DT_SHORTCUT_FLAG_BUTTON_RIGHT ≠ 0 then ["right"] else []) ++
     (if s.flags &&& DT_SHORTCUT_FLAG_CLICK_DOUBLE ≠ 0 then ["double"] else []) ++
     (if s.flags &&& DT_SHORTCUT_FLAG_CLICK_TRIPLE ≠ 0 then ["triple"] else []) ++
     (if s.flags &&& DT_SHORTCUT_FLAG_CLICK_LONG ≠ 0 then ["long"] else []))
    ([env.pathOf s.action] ++
     (if s.element ≠ 0 then [(elements.getD s.element ("", [])).1] else []) ++
     (if s.effect > (if shortcut_is_move s then DT_SHORTCUT_EFFECT_DEFAULT_MOVE
                     else DT_SHORTCUT_EFFECT_DEFAULT_KEY) then
        [(elements.getD s.element ("", [])).2.getD s.effect.toNat ""]
      else []) ++
     (if s.inst = -1 then ["last"] else []) ++
     (if s.inst = 1 then ["first"] else []) ++
     (if s.inst.natAbs > 1 then [env.intName s.inst] else []) ++
     (if s.speed ≠ 1 then ["*" ++ env.speedName s.speed] else []))

/-- dt_shortcuts_save (accelerators.c lines 1525-1591): one line per store
entry, in store order.  The config-file path handling and the backup rename
are filesystem concerns outside the codec. -/
def dt_shortcuts_save (env : CodecEnv) (store : List DtShortcut) : List SCLine :=
  store.map (save_shortcut_line env)

/-- strchr on a token: split at the first colon. -/
def splitCharsOnColon : List Char → Option (List Char × List Char)
  | [] => none
  | c :: cs =>
      if c = ':' then some ([], cs)
      else match splitCharsOnColon cs with
        | none => none
        | some (l, r) => some (c :: l, r)

/-- strchr on a token: split at the first colon, as strings. -/
def splitFirstColon (tok : String) : Option (String × String) :=
  match splitCharsOnColon tok.data with
  | none => none
  | some (l, r) => some (String.mk l, String.mk r)

/-- Outcome of parsing the key token of a line (accelerators.c lines
1628-1674): either the whole line is skipped, or parsing continues with the
key, modifier and device fields. -/
inductive KeyTokenResult where
  | skipLine (log : String)
  | cont (key mods key_device : Nat) (logs : List String)
deriving DecidableEq, Repr

/-- Parsing of the first (key) token of a line (accelerators.c lines
1628-1674).  None leaves everything zero.  A bare name goes through
gtk_accelerator_parse; a failed parse is logged but does not abandon the
line.  A colon selects the driver branch: a one-character driver name is
rejected (the C pointer arithmetic around the colon), and otherwise, with no
drivers registered, the driver lookup fails; both cases skip the line. -/
def parse_key_token (env : CodecEnv) (tok : String) : KeyTokenResult :=
  if tok = "None" then .cont 0 0 0 []
  else match splitFirstColon tok with
    | none =>
        let km := env.keyParse tok
        .cont km.1 km.2 0
          ((if km.2 ≠ 0 then ["unexpected modifiers found"] else []) ++
           (if km.1 = 0 then ["no key name found"] else []))
    | some (drv, _) =>
        if drv.length = 1 then .skipLine "missing driver name"
        else .skipLine "not a valid driver"

/-- Parsing of one token between the key token and the assignment sign
(accelerators.c lines 1676-1757): modifier names, button names, press or
click duration names (click when a button flag is already set), move names
(searched from index 1 of move_string), direction markers; anything else is
logged and the token alone is skipped.  A token with a colon enters the
driver branch, and with no drivers registered it is logged and skipped
(note: unlike in the key token, this does not abandon the line). -/
def parse_mid_token (s : DtShortcut) (tok : String) : DtShortcut × List String :=
  match splitFirstColon tok with
  | some (drv, _) =>
      (s, [if drv.length = 1 then "missing driver name" else "not a valid driver"])
  | none =>
      match modifier_string.find? (fun p => p.2 == tok) with
      | some p => ({ s with mods := s.mods ||| p.1 }, [])
      | none =>
        if tok = "left" then ({ s with flags := s.flags ||| DT_SHORTCUT_FLAG_BUTTON_LEFT }, [])
        else if tok = "middle" then
          ({ s with flags := s.flags ||| DT_SHORTCUT_FLAG_BUTTON_MIDDLE }, [])
        else if tok = "right" then
          ({ s with flags := s.flags ||| DT_SHORTCUT_FLAG_BUTTON_RIGHT }, [])
        else if tok = "double" then
          ({ s with flags := s.flags |||
              (if s.flags &&& DT_SHORTCUT_FLAG_BUTTON_MASK ≠ 0 then DT_SHORTCUT_FLAG_CLICK_DOUBLE
               else DT_SHORTCUT_FLAG_PRESS_DOUBLE) }, [])
        else if tok = "triple" then
          ({ s with flags := s.flags |||
              (if s.flags &&& DT_SHORTCUT_FLAG_BUTTON_MASK ≠ 0 then DT_SHORTCUT_FLAG_CLICK_TRIPLE
               else DT_SHORTCUT_FLAG_PRESS_TRIPLE) }, [])
        else if tok = "long" then
          ({ s with flags := s.flags |||
              (if s.flags &&& DT_SHORTCUT_FLAG_BUTTON_MASK ≠ 0 then DT_SHORTCUT_FLAG_CLICK_LONG
               else DT_SHORTCUT_FLAG_PRESS_LONG) }, [])
        else match (move_string.drop 1).findIdx? (· == tok) with
        | some i => ({ s with move := i + 1 }, [])
        | none =>
          if tok = "up" then ({ s with flags := s.flags ||| DT_SHORTCUT_FLAG_DIR_UP }, [])
          else if tok = "down" then
            ({ s with flags := s.flags ||| DT_SHORTCUT_FLAG_DIR_DOWN }, [])
          else (s, ["token not recognised"])

/-- Parsing of one token after the action path (accelerators.c lines
1776-1806): an element name (searched from index 1 of the element table,
resetting the effect to the default), an effect name from the current
element's effect list, the instance words first and last, a signed instance
number, a speed token, or an unrecognised token that is logged and
skipped. -/
def parse_post_token (elements : Option (List (String × List String)))
    (default_effect : Int) (env : CodecEnv) (s : DtShortcut) (tok : String) :
    DtShortcut × List String :=
  let viaElements : Option (DtShortcut × List String) :=
    match elements with
    | none => none
    | some tbl =>
      match (tbl.drop 1).findIdx? (fun p => p.1 == tok) with
      | some i => some ({ s with element := i + 1, effect := default_effect }, [])
      | none =>
        match ((tbl.getD s.element ("", [])).2).findIdx? (· == tok) with
        | some e => some ({ s with effect := (e : Int) }, [])
        | none => none
  match viaElements with
  | some r => r
  | none =>
    if tok = "first" then ({ s with inst := 1 }, [])
    else if tok = "last" then ({ s with inst := -1 }, [])
    else if tok.data.headD ' ' = '+' ∨ tok.data.headD ' ' = '-' then
      ({ s with inst := env.intParse tok }, [])
    else if tok.data.headD ' ' = '*' then
      ({ s with speed := env.speedParse (String.mk tok.data.tail) }, [])
    else (s, ["token not recognised"])

/-- Processing of one line of the shortcuts file (the body of the while
loop of dt_shortcuts_load, accelerators.c lines 1611-1809).  A line with no
assignment sign is logged and skipped.  The first token is the key token
even when it sits after the sign (strtok skips the leading delimiter); the
tokens strictly before the sign are the mid tokens; the first token at or
after the sign is the action path, resolved through the registry (creating
missing section nodes is part of the registry's locate and is inside the
resolution function); the remaining tokens configure element, effect,
instance and speed.  The line ends with a non-interactive insert_shortcut.
The two dead branches (an empty token list, a missing action token) would
dereference a null token in C and are modelled as skipped lines. -/
def load_line (env : CodecEnv) (store : List DtShortcut) :
    SCLine → List DtShortcut × List String
  | .noAssign _ => (store, ["line is not an assignment"])
  | .assign pre post =>
    match pre ++ post with
    | [] => (store, ["line is not an assignment"])
    | keyTok :: _ =>
      match parse_key_token env keyTok with
      | .skipLine l => (store, [l])
      | .cont k m kd logs0 =>
        let s0 : DtShortcut := { key := k, mods := m, key_device := kd }
        let folded := pre.tail.foldl (fun (acc : DtShortcut × List String) tok =>
            let r := parse_mid_token acc.1 tok
            (r.1, acc.2 ++ r.2)) (s0, logs0)
        let actionToks := if pre.isEmpty then post.tail else post
        match actionToks with
        | [] => (store, folded.2 ++ ["action path not found"])
        | actTok :: trailing =>
          match env.locateAction actTok with
          | none => (store, folded.2 ++ ["action path not found"])
          | some act =>
            let s2 : DtShortcut := { folded.1 with action := act }
            let elements := action_find_elements env.typeOf act
            let default_effect : Int :=
              if shortcut_is_move s2 then DT_SHORTCUT_EFFECT_DEFAULT_MOVE
              else DT_SHORTCUT_EFFECT_DEFAULT_KEY
            let final := trailing.foldl (fun (acc : DtShortcut × List String) tok =>
                let r := parse_post_token elements default_effect env acc.1 tok
                (r.1, acc.2 ++ r.2)) ({ s2 with effect := default_effect }, folded.2)
            ((insert_shortcut env.viewsOf env.typeOf env.view false [] store final.1).store,
             final.2)

/-- dt_shortcuts_load (accelerators.c lines 1593-1813): optionally clear the
store, then process the file line by line, each line folding its result into
the store; the second component collects the diagnostic log lines. -/
def dt_shortcuts_load (env : CodecEnv) (clear : Bool) (lines : List SCLine)
    (store0 : List DtShortcut) : List DtShortcut × List String :=
  lines.foldl (fun acc line =>
      let r := load_line env acc.1 line
      (r.1, acc.2 ++ r.2))
    ((if clear then [] else store0), [])

/-! ### Key press/release gesture state machine -/

/-- The static state of the key gesture machine: pressed_keys, the key part
of the shortcut under construction _sc (key device, key, modifiers, flags),
_last_time, and the single-shot delayed-finalize timer _timeout_source,
modelled by the absolute time at which it will fire. -/
structure KeyState where
  pressed : List (Nat × Nat)
  key_device : Nat
  key : Nat
  mods : Nat
  flags : Nat
  last_time : Nat
  timeout : Option Nat
deriving DecidableEq, Repr

/-- The initial static state. -/
def initKeyState : KeyState := ⟨[], 0, 0, 0, 0, 0, none⟩

/-- The shortcut descriptor observed at the resolution boundary: finalizing
a key gesture calls dt_shortcut_move(KEYBOARD_MOUSE, 0, MOVE_NONE, 1), which
resolves the shortcut under construction; the observation records its key
part (device, key, modifiers and the press-classification flags). -/
structure KeyDispatch where
  key_device : Nat
  key : Nat
  mods : Nat
  flags : Nat
deriving DecidableEq, Repr

/-- _key_up_delayed (accelerators.c lines 2188-2204): when not timed out it
dispatches the assembled shortcut through dt_shortcut_move, then resets the
shortcut under construction, the timer handle and _last_time. -/
def key_up_delayed (timed_out : Bool) (st : KeyState) : KeyState × List KeyDispatch :=
  (⟨st.pressed, 0, 0, 0, 0, 0, none⟩,
   if timed_out then [] else [⟨st.key_device, st.key, st.mods, st.flags⟩])

/-- The timer firing through the event loop: g_timeout_add invokes
_key_up_delayed with its null user data, hence not timed out, which
dispatches.  Fired before processing any event whose timestamp is at or
past the deadline. -/
def fire_due (t : Nat) (st : KeyState) : KeyState × List KeyDispatch :=
  match st.timeout with
  | some d => if d ≤ t then key_up_delayed false st else (st, [])
  | none => (st, [])

/-- dt_shortcut_key_press (accelerators.c lines 2219-2265).  The delay is
the platform double-click time.  A repeat of an already-held key is ignored;
otherwise the pending timer is cancelled, and when no key was held the
modifiers are latched and a same-key press within the double-click interval
of the previous press (and not already at triple) adds the double bit to the
flag accumulator, while anything else resets the accumulator.  The press
time, device and key are recorded, the flags are masked to the press group,
and the key joins the held set.  The seat grab and the mapping-widget lookup
are external UI concerns. -/
def dt_shortcut_key_press (delay : Nat) (id t key mods : Nat) (st : KeyState) : KeyState :=
  if st.pressed.contains (id, key) then st
  else
    let st1 := { st with timeout := none }
    let st2 :=
      if st1.pressed = [] then
        let stm := { st1 with mods := mods }
        if id = stm.key_device ∧ key = stm.key ∧ t < stm.last_time + delay ∧
           stm.flags &&& DT_SHORTCUT_FLAG_PRESS_TRIPLE = 0 then
          { stm with flags := stm.flags + DT_SHORTCUT_FLAG_PRESS_DOUBLE }
        else { stm with flags := 0 }
      else st1
    { st2 with last_time := t, key_device := id, key := key,
               flags := st2.flags &&& DT_SHORTCUT_FLAG_PRESS_MASK,
               pressed := (id, key) :: st2.pressed }

/-- dt_shortcut_key_release (accelerators.c lines 2267-2306).  The released
key leaves the held set; when the set becomes empty and the release matches
the key under construction, a release within the double-click interval that
is not already triple arms the delayed finalize for the remaining interval,
and otherwise the long-press flag is added when the hold exceeded the
interval and the finalize runs immediately, timed out (hence without
dispatch) when the hold exceeded twice the interval.  Emptying the set with
a different key finalizes timed out. -/
def dt_shortcut_key_release (delay : Nat) (id t key : Nat) (st : KeyState) :
    KeyState × List KeyDispatch :=
  if st.pressed.contains (id, key) then
    let st1 := { st with pressed := st.pressed.erase (id, key) }
    if st1.pressed = [] then
      if st1.key_device = id ∧ st1.key = key then
        let passed := t - st1.last_time
        if passed < delay ∧ st1.flags &&& DT_SHORTCUT_FLAG_PRESS_TRIPLE = 0 then
          (if st1.timeout = none then { st1 with timeout := some (t + (delay - passed)) }
           else st1, [])
        else
          let st2 :=
            if passed > delay then
              { st1 with flags := st1.flags ||| DT_SHORTCUT_FLAG_PRESS_LONG }
            else st1
          key_up_delayed (decide (passed > 2 * delay)) st2
      else key_up_delayed true st1
    else (st1, [])
  else (st, [])

/-- An input event of the key machine, with its timestamp. -/
inductive KeyEvent where
  | press (id t key mods : Nat)
  | release (id t key : Nat)
deriving DecidableEq, Repr

/-- The timestamp of an event. -/
def KeyEvent.time : KeyEvent → Nat
  | .press _ t _ _ => t
  | .release _ t _ => t

/-- One event step: any due timer fires first (the event loop delivers the
timeout before a later-timestamped input event), then the event is
processed. -/
def key_step (delay : Nat) (st : KeyState) (e : KeyEvent) : KeyState × List KeyDispatch :=
  let fired := fire_due e.time st
  match e with
  | .press id t key mods => (dt_shortcut_key_press delay id t key mods fired.1, fired.2)
  | .release id t key =>
      let r := dt_shortcut_key_release delay id t key fired.1
      (r.1, fired.2 ++ r.2)

/-- A whole input trace: fold the events from the initial state, then let
any still-pending timer elapse. -/
def key_run (delay : Nat) (events : List KeyEvent) : KeyState × List KeyDispatch :=
  let final := events.foldl (fun acc e =>
      let r := key_step delay acc.1 e
      (r.1, acc.2 ++ r.2)) (initKeyState, [])
  match final.1.timeout with
  | some _ =>
      let r := key_up_delayed false final.1
      (r.1, final.2 ++ r.2)
  | none => final

/-! ### Instance resolution (process_mapping) -/

/-- The attributes of one entry of the darkroom module list that the
instance-resolution loop of process_mapping reads: whether the module is an
instance of the bound action's module (mod->so == module), whether its
iop_order is valid (not INT_MAX), whether its widget_list is non-empty, and
whether the head referral of that list currently owns the preferred target
mapping (referral->target == referral->action->target). -/
structure IopModule where
  so_match : Bool
  order_valid : Bool
  widgets : Bool
  preferred : Bool
deriving DecidableEq, Repr

/-- The module-instance search loop of process_mapping (accelerators.c lines
1946-1970).  The counter starts at the absolute instance selector; the list
is walked forward for a non-negative selector and backward otherwise.  A
module with widgets whose head referral is preferred stops the walk when the
selector is zero; a module of the right kind with a valid order decrements
the counter and stops it at zero.  The C loop variable retains the last
visited module when the walk exhausts the list, reproduced here by the
accumulator. -/
def find_instance_from (inst : Int) : Int → List IopModule → Option IopModule → Option IopModule
  | _, [], last => last
  | current, m :: rest, _ =>
      if m.widgets ∧ inst = 0 ∧ m.preferred then some m
      else if m.so_match ∧ m.order_valid ∧ current - 1 = 0 then some m
      else find_instance_from inst
             (if m.so_match ∧ m.order_valid then current - 1 else current) rest (some m)

/-- The instance-resolution fragment of process_mapping: direction of the
walk and initial counter per the instance selector. -/
def process_mapping_instance (inst : Int) (mods : List IopModule) : Option IopModule :=
  find_instance_from inst (inst.natAbs : Int)
    (if inst ≥ 0 then mods else mods.reverse) none

/-! ### Scroll dispatch (dt_shortcut_dispatcher) -/

/-- The GDK_SCROLL case of dt_shortcut_dispatcher (accelerators.c lines
2379-2390): the unit deltas returned by the external scroll helper are each
dispatched at once through dt_shortcut_move, the horizontal axis as a Pan
move of size minus delta_x, then the vertical axis as a Scroll move of size
minus delta_y; a zero delta on an axis dispatches nothing for that axis.
The result lists the dispatched (move type, size) pairs in call order. -/
def dt_shortcut_dispatcher_scroll (delta_x delta_y : Int) : List (Nat × Int) :=
  (if delta_x ≠ 0 then [(DT_SHORTCUT_MOVE_PAN, -delta_x)] else []) ++
  (if delta_y ≠ 0 then [(DT_SHORTCUT_MOVE_SCROLL, -delta_y)] else [])

/-! ### Specification-side orderings and observation helpers -/

/-- The view-applicability rank of the spec (section 4.2, criterion 1):
rank 0 for a views mask intersecting the active view, rank 1 for a non-empty
mask that does not intersect it, rank 2 for the empty fallback mask, lower
ranks sorting first. -/
def view_rank (views v : Nat) : Nat :=
  if views = 0 then 2 else if views &&& v ≠ 0 then 0 else 1

/-- The comparator chain exactly as the claim words it: view applicability,
then key device, key code, flags with the two direction bits masked out,
move device, move code, modifier bitmask (each ascending), and finally, for
two records that differ only in having opposite direction bits set, the
direction bit (the up half first).  This definition follows the spec text,
to be compared with the comparator embedded from the source. -/
def claim_chain_lt (a b : DtShortcut) (v : Nat) : Prop :=
  view_rank a.views v < view_rank b.views v ∨
  (view_rank a.views v = view_rank b.views v ∧ (a.key_device < b.key_device ∨
    (a.key_device = b.key_device ∧ (a.key < b.key ∨
      (a.key = b.key ∧ (clearDir a.flags < clearDir b.flags ∨
        (clearDir a.flags = clearDir b.flags ∧ (a.move_device < b.move_device ∨
          (a.move_device = b.move_device ∧ (a.move < b.move ∨
            (a.move = b.move ∧ (a.mods < b.mods ∨
              (a.mods = b.mods ∧
               a.flags &&& DT_SHORTCUT_FLAG_DIR_MASK = DT_SHORTCUT_FLAG_DIR_UP ∧
               b.flags &&& DT_SHORTCUT_FLAG_DIR_MASK = DT_SHORTCUT_FLAG_DIR_DOWN)))))))))))))

/-- The tie conditions under which the code comparator reports the same
binding slot: same view-applicability, key device, key, flags differing at
most in the direction bits but not in exactly the pair of opposite
direction bits, same move device, move and modifiers. -/
def slot_ties (a b : DtShortcut) (v : Nat) : Prop :=
  ((a.views = 0 ∧ b.views = 0) ∨
   (a.views ≠ 0 ∧ b.views ≠ 0 ∧ a.views &&& v = b.views &&& v)) ∧
  a.key_device = b.key_device ∧ a.key = b.key ∧
  (a.flags ^^^ b.flags) &&& DT_SHORTCUT_FLAG_DIR_MASK = a.flags ^^^ b.flags ∧
  a.flags ^^^ b.flags ≠ DT_SHORTCUT_FLAG_DIR_MASK ∧
  a.move_device = b.move_device ∧ a.move = b.move ∧ a.mods = b.mods

/-- The priority chain the code comparator actually implements: view
applicability rank, key device, key code, then, whenever the flags differ
outside the two direction bits, the full flags value including the direction
bits, then move device, move code, modifier bitmask, and finally, when the
flags differ in exactly the set of the two direction bits, the full flags
value. -/
def code_chain_lt (a b : DtShortcut) (v : Nat) : Prop :=
  view_rank a.views v < view_rank b.views v ∨
  (view_rank a.views v = view_rank b.views v ∧ (a.key_device < b.key_device ∨
    (a.key_device = b.key_device ∧ (a.key < b.key ∨
      (a.key = b.key ∧
        (((a.flags ^^^ b.flags) &&& DT_SHORTCUT_FLAG_DIR_MASK ≠ a.flags ^^^ b.flags ∧
          a.flags < b.flags) ∨
         ((a.flags ^^^ b.flags) &&& DT_SHORTCUT_FLAG_DIR_MASK = a.flags ^^^ b.flags ∧
          (a.move_device < b.move_device ∨
            (a.move_device = b.move_device ∧ (a.move < b.move ∨
              (a.move = b.move ∧ (a.mods < b.mods ∨
                (a.mods = b.mods ∧ a.flags ^^^ b.flags = DT_SHORTCUT_FLAG_DIR_MASK ∧
                 a.flags < b.flags)))))))))))))

instance claim_chain_lt_decidable (a b : DtShortcut) (v : Nat) :
    Decidable (claim_chain_lt a b v) := by
  unfold claim_chain_lt
  infer_instance

instance slot_ties_decidable (a b : DtShortcut) (v : Nat) :
    Decidable (slot_ties a b v) := by
  unfold slot_ties
  infer_instance

instance code_chain_lt_decidable (a b : DtShortcut) (v : Nat) :
    Decidable (code_chain_lt a b v) := by
  unfold code_chain_lt
  infer_instance

/-- The observation record of the round-trip property: input descriptor
(key device, key, modifiers, flags, move device, move), bound action,
element, effect, instance and speed. -/
structure ShortcutTuple where
  key_device : Nat
  key : Nat
  mods : Nat
  flags : Nat
  move_device : Nat
  move : Nat
  action : Nat
  element : Nat
  effect : Int
  inst : Int
  speed : Rat
deriving DecidableEq, Repr

/-- The round-trip observation of one shortcut record. -/
def shortcutTuple (s : DtShortcut) : ShortcutTuple :=
  ⟨s.key_device, s.key, s.mods, s.flags, s.move_device, s.move, s.action,
   s.element, s.effect, s.inst, s.speed⟩

/-- A live instance of the bound action's module in the darkroom pipe: the
right module kind with a valid iop order. -/
def iop_live (m : IopModule) : Bool := m.so_match ∧ m.order_valid

/-! ### Concrete fixtures for witnesses and counterexamples -/

/-- A views table for the tests: action 1 applies to view 1, others to the
view pair 3. -/
def viewsOfT : Nat → Nat := fun a => if a = 1 then 1 else 3

/-- A type table for the tests: no action is KEY_PRESSED styled. -/
def typeOfT : Nat → Nat := fun _ => 0

/-- A non-directional move binding for action 5 on view 1. -/
def moveBinding : DtShortcut := { views := 1, key := 10, move := 1, action := 5 }

/-- The same gesture with the stored default-move effect sentinel. -/
def moveBindingDefEff : DtShortcut :=
  { views := 1, key := 10, move := 1, action := 5,
    effect := DT_SHORTCUT_EFFECT_DEFAULT_MOVE }

/-- A key binding of action 2 for views 3 (clashing views with view 1). -/
def clashBinding : DtShortcut := { views := 3, key := 10, action := 2 }

/-- A key binding of action 1 for view 1, same gesture as clashBinding. -/
def keyBinding : DtShortcut := { views := 1, key := 10, action := 1 }

/-- The comparator-claim counterexample pair: a long-press binding, and a
double-press binding that carries a direction-down bit. -/
def cmpA : DtShortcut := { views := 1, flags := DT_SHORTCUT_FLAG_PRESS_LONG }

/-- See cmpA. -/
def cmpB : DtShortcut :=
  { views := 1, flags := DT_SHORTCUT_FLAG_PRESS_DOUBLE ||| DT_SHORTCUT_FLAG_DIR_DOWN }

/-- A concrete codec environment: decimal key names, action 7 is a combo
reachable under path P7, everything applies to view 1, and simple exact
renderings for integers and speeds. -/
def envT : CodecEnv :=
  { keyName := fun k => "K" ++ toString k
    keyParse := fun t => if t = "K100" then (100, 0) else (0, 0)
    pathOf := fun a => "P" ++ toString a
    locateAction := fun p => if p = "P7" then some 7 else none
    typeOf := fun a => if a = 7 then DT_ACTION_TYPE_COMBO else 0
    viewsOf := fun _ => 1
    view := 1
    intName := fun i => toString i
    intParse := fun _ => 0
    speedName := fun _ => ""
    speedParse := fun _ => 1 }

/-- A combo-selection binding with default element and effect, bound to the
first instance of its module: the round-trip failing input. -/
def comboFirstInstance : DtShortcut := { views := 1, key := 100, action := 7, inst := 1 }

/-- A live pipe module instance that is not the preferred one. -/
def mLive : IopModule := ⟨true, true, true, false⟩

/-- The preferred pipe module instance. -/
def mPref : IopModule := ⟨true, true, true, true⟩

/-! ### Bitwise helper lemmas -/

/-- Adjoining a disjoint bit set and removing the original leaves the bit
set. -/
theorem or_xor_self_of_and_eq_zero (a d : Nat) (h : a &&& d = 0) : (a ||| d) ^^^ a = d := by
  apply Nat.eq_of_testBit_eq
  intro i
  have h0 : (a &&& d).testBit i = (0 : Nat).testBit i := by rw [h]
  rw [Nat.testBit_and, Nat.zero_testBit] at h0
  rw [Nat.testBit_xor, Nat.testBit_or]
  cases ha : a.testBit i <;> cases hd : d.testBit i <;> simp_all

/-- Adjoining a disjoint bit set and removing it again is the identity. -/
theorem or_xor_cancel_of_and_eq_zero (a d : Nat) (h : a &&& d = 0) : (a ||| d) ^^^ d = a := by
  have h1 := or_xor_self_of_and_eq_zero a d h
  calc (a ||| d) ^^^ d = (a ||| d) ^^^ ((a ||| d) ^^^ a) := by rw [h1]
  _ = a := Nat.xor_cancel_left _ _

/-- Disjointness from a mask transfers to any subset of the mask. -/
theorem and_eq_zero_of_or_eq (a d m : Nat) (h : a &&& m = 0) (hd : d ||| m = m) :
    a &&& d = 0 := by
  apply Nat.eq_of_testBit_eq
  intro i
  have h0 : (a &&& m).testBit i = (0 : Nat).testBit i := by rw [h]
  rw [Nat.testBit_and, Nat.zero_testBit] at h0
  have h1 : (d ||| m).testBit i = m.testBit i := by rw [hd]
  rw [Nat.testBit_or] at h1
  rw [Nat.testBit_and, Nat.zero_testBit]
  cases ha : a.testBit i <;> cases hdd : d.testBit i <;> cases hm : m.testBit i <;> simp_all

/-- Masking a union of a mask-disjoint part and a mask-contained part keeps
exactly the contained part. -/
theorem or_and_mask (a d m : Nat) (h : a &&& m = 0) (hd : d &&& m = d) :
    (a ||| d) &&& m = d := by
  apply Nat.eq_of_testBit_eq
  intro i
  have h0 : (a &&& m).testBit i = (0 : Nat).testBit i := by rw [h]
  rw [Nat.testBit_and, Nat.zero_testBit] at h0
  have h1 : (d &&& m).testBit i = d.testBit i := by rw [hd]
  rw [Nat.testBit_and] at h1
  rw [Nat.testBit_and, Nat.testBit_or]
  cases ha : a.testBit i <;> cases hdd : d.testBit i <;> cases hm : m.testBit i <;> simp_all

/-- For flags free of the direction bits, the up-directed value is below the
down-directed one. -/
theorem or_dir_up_lt_down (a : Nat) (h : a &&& DT_SHORTCUT_FLAG_DIR_MASK = 0) :
    a ||| DT_SHORTCUT_FLAG_DIR_UP < a ||| DT_SHORTCUT_FLAG_DIR_DOWN := by
  have h10 : a.testBit 10 = false := by
    have h0 : (a &&& DT_SHORTCUT_FLAG_DIR_MASK).testBit 10 = (0 : Nat).testBit 10 := by rw [h]
    rw [Nat.testBit_and, Nat.zero_testBit] at h0
    have hm : Nat.testBit DT_SHORTCUT_FLAG_DIR_MASK 10 = true := by decide
    cases ha : a.testBit 10 <;> simp_all
  apply Nat.lt_of_testBit 10
  · rw [Nat.testBit_or, h10]
    have hu : Nat.testBit DT_SHORTCUT_FLAG_DIR_UP 10 = false := by decide
    rw [hu]
    rfl
  · rw [Nat.testBit_or]
    have hd : Nat.testBit DT_SHORTCUT_FLAG_DIR_DOWN 10 = true := by decide
    rw [hd]
    simp
  · intro j hj
    rw [Nat.testBit_or, Nat.testBit_or]
    have hu : Nat.testBit DT_SHORTCUT_FLAG_DIR_UP j = false := by
      rw [show DT_SHORTCUT_FLAG_DIR_UP = 2 ^ 9 from rfl]
      exact Nat.testBit_two_pow_of_ne (by omega)
    have hd : Nat.testBit DT_SHORTCUT_FLAG_DIR_DOWN j = false := by
      rw [show DT_SHORTCUT_FLAG_DIR_DOWN = 2 ^ 10 from rfl]
      exact Nat.testBit_two_pow_of_ne (by omega)
    rw [hu, hd]

/-- A mask with a single bit is all or nothing. -/
theorem and_two_pow_cases (w k : Nat) : w &&& 2 ^ k = 0 ∨ w &&& 2 ^ k = 2 ^ k := by
  rw [Nat.and_two_pow]
  cases w.testBit k <;> simp

/-- The code comparator reports the same binding slot exactly at the tie
conditions of slot_ties, for every active-view mask. -/
theorem shortcut_compare_eq_zero_iff (a b : DtShortcut) (v : Nat) :
    shortcut_compare_func a b v = 0 ↔ slot_ties a b v := by
  have hview : ((if a.views ≠ 0 then ((a.views &&& v : Nat) : Int) else -1) =
      (if b.views ≠ 0 then ((b.views &&& v : Nat) : Int) else -1)) ↔
      ((a.views = 0 ∧ b.views = 0) ∨
       (a.views ≠ 0 ∧ b.views ≠ 0 ∧ a.views &&& v = b.views &&& v)) := by
    by_cases ha : a.views = 0 <;> by_cases hb : b.views = 0 <;> simp [ha, hb] <;> omega
  rw [shortcut_compare_func, slot_ties]
  by_cases h1 : (if a.views ≠ 0 then ((a.views &&& v : Nat) : Int) else -1) =
      (if b.views ≠ 0 then ((b.views &&& v : Nat) : Int) else -1)
  case neg =>
    rw [if_pos h1]
    constructor
    · intro hEq
      rw [sub_eq_zero] at hEq
      exact absurd hEq.symm h1
    · rintro ⟨hv, -⟩
      exact absurd (hview.mpr hv) h1
  case pos =>
    rw [if_neg (not_ne_iff.mpr h1)]
    have hve := hview.mp h1
    split_ifs with h2 h3 h4 h5 h6 h7 h8
    · constructor
      · intro hEq
        exact absurd (show a.key_device = b.key_device by omega) h2
      · rintro ⟨-, hkd, -⟩
        exact absurd hkd h2
    · constructor
      · intro hEq
        exact absurd (show a.key = b.key by omega) h3
      · rintro ⟨-, -, hk, -⟩
        exact absurd hk h3
    · constructor
      · intro hEq
        have hfe : a.flags = b.flags := by omega
        rw [hfe, Nat.xor_self] at h4
        simp at h4
      · rintro ⟨-, -, -, hsub, -⟩
        exact absurd hsub h4
    · constructor
      · intro hEq
        exact absurd (show a.move_device = b.move_device by omega) h5
      · rintro ⟨-, -, -, -, -, hmd, -⟩
        exact absurd hmd h5
    · constructor
      · intro hEq
        exact absurd (show a.move = b.move by omega) h6
      · rintro ⟨-, -, -, -, -, -, hm, -⟩
        exact absurd hm h6
    · constructor
      · intro hEq
        exact absurd (show a.mods = b.mods by omega) h7
      · rintro ⟨-, -, -, -, -, -, -, hmods⟩
        exact absurd hmods h7
    · have hxor : a.flags ^^^ b.flags = DT_SHORTCUT_FLAG_DIR_MASK := Nat.xor_eq_zero.mp h8
      constructor
      · intro hEq
        have hfe : a.flags = b.flags := by omega
        rw [hfe, Nat.xor_self] at hxor
        exact absurd hxor.symm (by decide)
      · rintro ⟨-, -, -, -, hne, -⟩
        exact absurd hxor hne
    · constructor
      · intro _
        refine ⟨hve, not_ne_iff.mp h2, not_ne_iff.mp h3,
                not_ne_iff.mp h4, ?_, not_ne_iff.mp h5, not_ne_iff.mp h6, not_ne_iff.mp h7⟩
        intro hxx
        exact h8 (by rw [hxx, Nat.xor_self])
      · intro _
        rfl

/-- The comparator's in-view value, rewritten through the view rank, for a
single-bit active view. -/
theorem in_view_int_rank (w k : Nat) :
    (if w ≠ 0 then ((w &&& 2 ^ k : Nat) : Int) else -1) =
      (if view_rank w (2 ^ k) = 0 then ((2 ^ k : Nat) : Int)
       else if view_rank w (2 ^ k) = 1 then 0 else -1) := by
  have h2p : 0 < 2 ^ k := Nat.two_pow_pos k
  rw [view_rank]
  by_cases h0 : w = 0
  · simp [h0]
  · rcases and_two_pow_cases w k with h | h <;> simp [h0, h] <;> omega

/-- The three possible view ranks. -/
theorem view_rank_cases (w v : Nat) :
    view_rank w v = 0 ∨ view_rank w v = 1 ∨ view_rank w v = 2 := by
  rw [view_rank]
  split_ifs <;> simp

/-- The code comparator reports a strictly-before order exactly per the
chain of code_chain_lt, for a single-bit active view. -/
theorem shortcut_compare_neg_iff (a b : DtShortcut) (v : Nat) (hk2 : ∃ k, v = 2 ^ k) :
    shortcut_compare_func a b v < 0 ↔ code_chain_lt a b v := by
  obtain ⟨k, rfl⟩ := hk2
  have h2p : (1 : Int) ≤ ((2 ^ k : Nat) : Int) := by
    exact_mod_cast Nat.two_pow_pos k
  have h2q : (0 : Int) < 2 ^ k := by positivity
  have hra := view_rank_cases a.views (2 ^ k)
  have hrb := view_rank_cases b.views (2 ^ k)
  have heqr : ((if a.views ≠ 0 then ((a.views &&& 2 ^ k : Nat) : Int) else -1) =
      (if b.views ≠ 0 then ((b.views &&& 2 ^ k : Nat) : Int) else -1)) ↔
      view_rank a.views (2 ^ k) = view_rank b.views (2 ^ k) := by
    rw [in_view_int_rank, in_view_int_rank]
    rcases hra with h | h | h <;> rcases hrb with h' | h' | h' <;> simp [h, h'] <;>
      push_cast <;> omega
  have hltr : ((if b.views ≠ 0 then ((b.views &&& 2 ^ k : Nat) : Int) else -1) <
      (if a.views ≠ 0 then ((a.views &&& 2 ^ k : Nat) : Int) else -1)) ↔
      view_rank a.views (2 ^ k) < view_rank b.views (2 ^ k) := by
    rw [in_view_int_rank, in_view_int_rank]
    rcases hra with h | h | h <;> rcases hrb with h' | h' | h' <;> simp [h, h'] <;>
      push_cast <;> omega
  rw [shortcut_compare_func, code_chain_lt]
  by_cases h1 : (if a.views ≠ 0 then ((a.views &&& 2 ^ k : Nat) : Int) else -1) =
      (if b.views ≠ 0 then ((b.views &&& 2 ^ k : Nat) : Int) else -1)
  case neg =>
    rw [if_pos h1, sub_neg]
    constructor
    · intro hlt
      exact Or.inl (hltr.mp hlt)
    · rintro (hlt | ⟨hre, -⟩)
      · exact hltr.mpr hlt
      · exact absurd (heqr.mpr hre) h1
  case pos =>
    rw [if_neg (not_ne_iff.mpr h1)]
    have hre := heqr.mp h1
    split_ifs with h2 h3 h4 h5 h6 h7 h8
    · constructor
      · intro hlt
        exact Or.inr ⟨hre, Or.inl (by omega)⟩
      · rintro (hlt | ⟨-, hlt | ⟨hkde, -⟩⟩)
        · omega
        · omega
        · exact absurd hkde h2
    · have hkde := not_ne_iff.mp h2
      constructor
      · intro hlt
        exact Or.inr ⟨hre, Or.inr ⟨hkde, Or.inl (by omega)⟩⟩
      · rintro (hlt | ⟨-, hlt | ⟨-, hlt | ⟨hke, -⟩⟩⟩)
        · omega
        · omega
        · omega
        · exact absurd hke h3
    · have hkde := not_ne_iff.mp h2
      have hke := not_ne_iff.mp h3
      constructor
      · intro hlt
        exact Or.inr ⟨hre, Or.inr ⟨hkde, Or.inr ⟨hke, Or.inl ⟨h4, by omega⟩⟩⟩⟩
      · rintro (hlt | ⟨-, hlt | ⟨-, hlt | ⟨-, ⟨-, hlt⟩ | ⟨hme, -⟩⟩⟩⟩)
        · omega
        · omega
        · omega
        · omega
        · exact absurd hme h4
    · have hkde := not_ne_iff.mp h2
      have hke := not_ne_iff.mp h3
      have hme := not_ne_iff.mp h4
      constructor
      · intro hlt
        exact Or.inr ⟨hre, Or.inr ⟨hkde, Or.inr ⟨hke,
          Or.inr ⟨hme, Or.inl (by omega)⟩⟩⟩⟩
      · rintro (hlt | ⟨-, hlt | ⟨-, hlt | ⟨-, ⟨hne, -⟩ | ⟨-, hlt | ⟨hmde, -⟩⟩⟩⟩⟩)
        · omega
        · omega
        · omega
        · exact absurd hme hne
        · omega
        · exact absurd hmde h5
    · have hkde := not_ne_iff.mp h2
      have hke := not_ne_iff.mp h3
      have hme := not_ne_iff.mp h4
      have hmde := not_ne_iff.mp h5
      constructor
      · intro hlt
        exact Or.inr ⟨hre, Or.inr ⟨hkde, Or.inr ⟨hke,
          Or.inr ⟨hme, Or.inr ⟨hmde, Or.inl (by omega)⟩⟩⟩⟩⟩
      · rintro (hlt | ⟨-, hlt | ⟨-, hlt | ⟨-, ⟨hne, -⟩ |
          ⟨-, hlt | ⟨-, hlt | ⟨hmve, -⟩⟩⟩⟩⟩⟩)
        · omega
        · omega
        · omega
        · exact absurd hme hne
        · omega
        · omega
        · exact absurd hmve h6
    · have hkde := not_ne_iff.mp h2
      have hke := not_ne_iff.mp h3
      have hme := not_ne_iff.mp h4
      have hmde := not_ne_iff.mp h5
      have hmve := not_ne_iff.mp h6
      constructor
      · intro hlt
        exact Or.inr ⟨hre, Or.inr ⟨hkde, Or.inr ⟨hke,
          Or.inr ⟨hme, Or.inr ⟨hmde, Or.inr ⟨hmve, Or.inl (by omega)⟩⟩⟩⟩⟩⟩
      · rintro (hlt | ⟨-, hlt | ⟨-, hlt | ⟨-, ⟨hne, -⟩ |
          ⟨-, hlt | ⟨-, hlt | ⟨-, hlt | ⟨hmoe, -⟩⟩⟩⟩⟩⟩⟩)
        · omega
        · omega
        · omega
        · exact absurd hme hne
        · omega
        · omega
        · omega
        · exact absurd hmoe h7
    · have hkde := not_ne_iff.mp h2
      have hke := not_ne_iff.mp h3
      have hme := not_ne_iff.mp h4
      have hmde := not_ne_iff.mp h5
      have hmve := not_ne_iff.mp h6
      have hmoe := not_ne_iff.mp h7
      have hxor : a.flags ^^^ b.flags = DT_SHORTCUT_FLAG_DIR_MASK := Nat.xor_eq_zero.mp h8
      constructor
      · intro hlt
        exact Or.inr ⟨hre, Or.inr ⟨hkde, Or.inr ⟨hke, Or.inr ⟨hme,
          Or.inr ⟨hmde, Or.inr ⟨hmve, Or.inr ⟨hmoe, hxor, by omega⟩⟩⟩⟩⟩⟩⟩
      · rintro (hlt | ⟨-, hlt | ⟨-, hlt | ⟨-, ⟨hne, -⟩ |
          ⟨-, hlt | ⟨-, hlt | ⟨-, hlt | ⟨-, -, hlt⟩⟩⟩⟩⟩⟩⟩)
        · omega
        · omega
        · omega
        · exact absurd hme hne
        · omega
        · omega
        · omega
        · omega
    · have hkde := not_ne_iff.mp h2
      have hke := not_ne_iff.mp h3
      have hme := not_ne_iff.mp h4
      have hmde := not_ne_iff.mp h5
      have hmve := not_ne_iff.mp h6
      have hmoe := not_ne_iff.mp h7
      constructor
      · intro hlt
        exact absurd hlt (lt_irrefl 0)
      · rintro (hlt | ⟨-, hlt | ⟨-, hlt | ⟨-, ⟨hne, -⟩ |
          ⟨-, hlt | ⟨-, hlt | ⟨-, hlt | ⟨-, hxx, -⟩⟩⟩⟩⟩⟩⟩)
        · omega
        · omega
        · omega
        · exact absurd hme hne
        · omega
        · omega
        · omega
        · exact (h8 (by rw [hxx, Nat.xor_self])).elim

/-! ### C1: the binding-store comparator -/

/-- C1 counterexample: the claim orders by the flags with the direction bits
masked out, so the claim's chain puts the double-press-plus-direction record
cmpB (masked flags 1) strictly before the long-press record cmpA (masked
flags 4); the code comparator returns the full flags difference 4 - 1025 and
puts cmpA strictly before cmpB. -/
theorem shortcut_compare_func_claim_counterexample :
    claim_chain_lt cmpB cmpA 1 ∧ ¬ claim_chain_lt cmpA cmpB 1 ∧
    shortcut_compare_func cmpA cmpB 1 < 0 ∧ 0 < shortcut_compare_func cmpB cmpA 1 := by
  decide

/-- C1 (amended): for every pair of shortcut records and every single-bit
active view, the comparator compares equal (same binding slot) exactly when
every criterion ties (view applicability, key device, key, flags up to the
direction bits and not differing in exactly the two opposite direction bits,
move device, move, modifiers), and it orders strictly by the priority chain
of code_chain_lt: view-applicability rank, key device, key code, then the
full flags value whenever the flags differ outside the two direction bits,
then move device, move code, modifier bitmask, and finally, when the flags
differ in exactly the two direction bits, the full flags value. -/
theorem shortcut_compare_func_priority_chain (a b : DtShortcut) (v : Nat)
    (hv : ∃ k, v = 2 ^ k) :
    (shortcut_compare_func a b v = 0 ↔ slot_ties a b v) ∧
    (shortcut_compare_func a b v < 0 ↔ code_chain_lt a b v) :=
  ⟨shortcut_compare_eq_zero_iff a b v, shortcut_compare_neg_iff a b v hv⟩

/-- Witness for the amended comparator chain at a concrete pair and view. -/
theorem shortcut_compare_func_priority_chain_witness :
    (shortcut_compare_func cmpA cmpB 1 = 0 ↔ slot_ties cmpA cmpB 1) ∧
    (shortcut_compare_func cmpA cmpB 1 < 0 ↔ code_chain_lt cmpA cmpB 1) :=
  shortcut_compare_func_priority_chain cmpA cmpB 1 ⟨0, rfl⟩

/-! ### C9: scroll dispatch -/

/-- C9 counterexample: a vertical scroll whose helper delta is 1 dispatches
one Scroll move of signed size -1; no move of size equal to the delta is
dispatched. -/
theorem dt_shortcut_dispatcher_scroll_counterexample :
    dt_shortcut_dispatcher_scroll 0 1 = [(DT_SHORTCUT_MOVE_SCROLL, -1)] ∧
    (DT_SHORTCUT_MOVE_SCROLL, (1 : Int)) ∉ dt_shortcut_dispatcher_scroll 0 1 := by
  decide

/-- C9 (amended): every scroll event axis delta is dispatched immediately as
one discrete move, type Pan for the horizontal axis and Scroll for the
vertical axis, whose signed magnitude equals the negated axis delta; a zero
axis delta dispatches nothing for that axis. -/
theorem dt_shortcut_dispatcher_scroll_moves (dx dy s : Int) (m : Nat) :
    (m, s) ∈ dt_shortcut_dispatcher_scroll dx dy ↔
      ((m = DT_SHORTCUT_MOVE_PAN ∧ s = -dx ∧ dx ≠ 0) ∨
       (m = DT_SHORTCUT_MOVE_SCROLL ∧ s = -dy ∧ dy ≠ 0)) := by
  unfold dt_shortcut_dispatcher_scroll
  by_cases hx : dx = 0 <;> by_cases hy : dy = 0 <;>
    simp [hx, hy, DT_SHORTCUT_MOVE_PAN, DT_SHORTCUT_MOVE_SCROLL] <;>
      constructor <;> intro h <;> rcases h with h | h <;> simp_all

/-! ### C8: instance resolution -/

/-- A magnitude-one nonzero selector stops the counter walk at the first
live module of the walked list. -/
theorem find_instance_first_live (inst : Int) (hi : inst ≠ 0) :
    ∀ (L : List IopModule) (acc : Option IopModule) (m : IopModule),
      L.find? iop_live = some m → find_instance_from inst 1 L acc = some m := by
  intro L
  induction L with
  | nil => intro acc m h; simp at h
  | cons x xs ih =>
      intro acc m h
      rw [find_instance_from]
      by_cases hx : iop_live x = true
      · have hm : m = x := by
          rw [List.find?_cons_of_pos _ hx] at h
          exact (Option.some_inj.mp h).symm
        have hso : x.so_match = true ∧ x.order_valid = true := by
          have hx2 := hx
          rw [iop_live] at hx2
          simpa using hx2
        rw [if_neg (fun hc => hi hc.2.1), if_pos ⟨hso.1, hso.2, by decide⟩, hm]
      · rw [List.find?_cons_of_neg _ hx] at h
        have hso : ¬ (x.so_match = true ∧ x.order_valid = true) := by
          intro hc
          apply hx
          rw [iop_live]
          simp [hc.1, hc.2]
        rw [if_neg (fun hc => hi hc.2.1), if_neg (fun hc => hso ⟨hc.1, hc.2.1⟩),
            if_neg hso]
        exact ih (some x) m h

/-- With a zero selector and a non-positive counter the walk stops exactly
at the first module owning the preferred mapping. -/
theorem find_instance_preferred :
    ∀ (L : List IopModule) (current : Int), current ≤ 0 →
      ∀ (acc : Option IopModule) (m : IopModule),
        L.find? (fun x => x.widgets && x.preferred) = some m →
        find_instance_from 0 current L acc = some m := by
  intro L
  induction L with
  | nil => intro current hc acc m h; simp at h
  | cons x xs ih =>
      intro current hc acc m h
      rw [find_instance_from]
      simp only [List.find?_cons] at h
      cases hx : (x.widgets && x.preferred) with
      | true =>
          rw [hx] at h
          simp only [] at h
          have hm : m = x := by
            exact (Option.some_inj.mp h).symm
          have hw : x.widgets = true ∧ x.preferred = true := by
            simpa [Bool.and_eq_true] using hx
          rw [if_pos ⟨hw.1, rfl, hw.2⟩, hm]
      | false =>
          rw [hx] at h
          simp only [] at h
          have hw : ¬ (x.widgets = true ∧ x.preferred = true) := by
            intro hc2
            rw [hc2.1, hc2.2] at hx
            cases hx
          rw [if_neg (fun hc2 => hw ⟨hc2.1, hc2.2.2⟩),
              if_neg (fun hc2 => absurd hc2.2.2 (by omega))]
          exact ih _ (by split <;> omega) (some x) m h

/-- C8: for a duplicable module, selector +1 resolves to the first live
instance of the pipe list and selector -1 to the last (the first of the
reversed list), regardless of the instance count, and selector 0 resolves to
the instance that currently owns the preferred target mapping. -/
theorem process_mapping_instance_selectors :
    (∀ (L : List IopModule) (m : IopModule), L.find? iop_live = some m →
        process_mapping_instance 1 L = some m) ∧
    (∀ (L : List IopModule) (m : IopModule), L.reverse.find? iop_live = some m →
        process_mapping_instance (-1) L = some m) ∧
    (∀ (L : List IopModule) (m : IopModule),
        L.find? (fun x => x.widgets && x.preferred) = some m →
        process_mapping_instance 0 L = some m) := by
  refine ⟨?_, ?_, ?_⟩
  · intro L m h
    rw [process_mapping_instance]
    rw [if_pos (by norm_num)]
    exact find_instance_first_live 1 (by decide) L none m h
  · intro L m h
    rw [process_mapping_instance]
    rw [if_neg (by norm_num)]
    exact find_instance_first_live (-1) (by decide) L.reverse none m h
  · intro L m h
    rw [process_mapping_instance]
    rw [if_pos (by norm_num)]
    exact find_instance_preferred L 0 le_rfl none m h

/-- Witness: instance selection at a concrete two-instance pipe. -/
theorem process_mapping_instance_selectors_witness :
    process_mapping_instance 1 [mLive, mPref] = some mLive ∧
    process_mapping_instance (-1) [mLive, mPref] = some mPref ∧
    process_mapping_instance 0 [mLive, mPref] = some mPref :=
  ⟨process_mapping_instance_selectors.1 [mLive, mPref] mLive (by decide),
   process_mapping_instance_selectors.2.1 [mLive, mPref] mPref (by decide),
   process_mapping_instance_selectors.2.2 [mLive, mPref] mPref (by decide)⟩

/-! ### C4: the persistence round trip -/

/-- C4: evaluation of the codec at the failing input.  A combo-selection
binding with default element and effect, bound to the first instance of its
module, saves as the line K100=P7;first; reloading parses the token first
against the effect list of the combo's selection element, which contains the
word first at index 3, before the instance words are ever tried, so the
reloaded store holds effect 3 and instance 0 instead of effect 0 and
instance +1: the tuple sets differ and the round trip fails. -/
theorem dt_shortcuts_save_load_failing_input :
    dt_shortcuts_save envT [comboFirstInstance] =
      [SCLine.assign ["K100"] ["P7", "first"]] ∧
    (dt_shortcuts_load envT true (dt_shortcuts_save envT [comboFirstInstance]) []).1 =
      [{ views := 1, key := 100, action := 7, effect := 3, inst := 0 }] ∧
    (dt_shortcuts_load envT true (dt_shortcuts_save envT [comboFirstInstance]) []).1.map
        shortcutTuple ≠ [comboFirstInstance].map shortcutTuple := by
  decide

/-! ### C5: load-time error handling -/

/-- C5 counterexample: a line whose bare key token is unparseable (the GTK
accelerator parse yields key 0) is logged but not skipped: the line still
creates a binding, with key 0, so the resulting store is not empty. -/
theorem dt_shortcuts_load_bad_key_counterexample :
    dt_shortcuts_load envT true [SCLine.assign ["garbage"] ["P7"]] [] =
      ([{ views := 1, action := 7 }], ["no key name found"]) ∧
    (dt_shortcuts_load envT true [SCLine.assign ["garbage"] ["P7"]] []).1 ≠ [] := by
  decide

/-- The store component of the load fold does not depend on the log
accumulator. -/
theorem load_fold_store (env : CodecEnv) (ls : List SCLine) :
    ∀ (s : List DtShortcut) (logs : List String),
      (ls.foldl (fun acc line =>
          let r := load_line env acc.1 line
          (r.1, acc.2 ++ r.2)) (s, logs)).1 =
      (ls.foldl (fun acc line =>
          let r := load_line env acc.1 line
          (r.1, acc.2 ++ r.2)) (s, [])).1 := by
  induction ls with
  | nil => intro s logs; rfl
  | cons l rest ih =>
      intro s logs
      rw [List.foldl_cons, List.foldl_cons]
      rw [ih (load_line env s l).1 (logs ++ (load_line env s l).2),
          ih (load_line env s l).1 ([] ++ (load_line env s l).2)]

/-- The shortcut component of the mid-token fold does not depend on the log
accumulator. -/
theorem mid_fold_shortcut (toks : List String) :
    ∀ (s : DtShortcut) (l1 l2 : List String),
      (toks.foldl (fun (acc : DtShortcut × List String) tok =>
          let r := parse_mid_token acc.1 tok
          (r.1, acc.2 ++ r.2)) (s, l1)).1
      = (toks.foldl (fun (acc : DtShortcut × List String) tok =>
          let r := parse_mid_token acc.1 tok
          (r.1, acc.2 ++ r.2)) (s, l2)).1 := by
  induction toks with
  | nil => intro s l1 l2; rfl
  | cons tok rest ih =>
    intro s l1 l2
    rw [List.foldl_cons, List.foldl_cons]
    exact ih (parse_mid_token s tok).1 (l1 ++ (parse_mid_token s tok).2)
      (l2 ++ (parse_mid_token s tok).2)

/-- The shortcut component of the post-token fold does not depend on the log
accumulator. -/
theorem post_fold_shortcut (elements : Option (List (String × List String)))
    (default_effect : Int) (env : CodecEnv) (toks : List String) :
    ∀ (s : DtShortcut) (l1 l2 : List String),
      (toks.foldl (fun (acc : DtShortcut × List String) tok =>
          let r := parse_post_token elements default_effect env acc.1 tok
          (r.1, acc.2 ++ r.2)) (s, l1)).1
      = (toks.foldl (fun (acc : DtShortcut × List String) tok =>
          let r := parse_post_token elements default_effect env acc.1 tok
          (r.1, acc.2 ++ r.2)) (s, l2)).1 := by
  induction toks with
  | nil => intro s l1 l2; rfl
  | cons tok rest ih =>
    intro s l1 l2
    rw [List.foldl_cons, List.foldl_cons]
    exact ih (parse_post_token elements default_effect env s tok).1
      (l1 ++ (parse_post_token elements default_effect env s tok).2)
      (l2 ++ (parse_post_token elements default_effect env s tok).2)

theorem mid_token_driver_skips_token (env : CodecEnv) (store : List DtShortcut)
    (keyTok badTok drv rtok : String) (mids post : List String)
    (hsplit : splitFirstColon badTok = some (drv, rtok)) :
    (load_line env store (.assign (keyTok :: (mids ++ [badTok])) post)).1
      = (load_line env store (.assign (keyTok :: mids) post)).1 := by
  rw [load_line, load_line]
  simp only [List.cons_append]
  cases hk : parse_key_token env keyTok with
  | skipLine l => rfl
  | cont k m kd logs =>
    simp only [List.tail_cons, List.isEmpty_cons, Bool.false_eq_true, if_false]
    have hstep : List.foldl (fun acc tok =>
          ((parse_mid_token acc.1 tok).1, acc.2 ++ (parse_mid_token acc.1 tok).2))
        ({ key := k, mods := m, key_device := kd }, logs) (mids ++ [badTok])
      = ((List.foldl (fun acc tok =>
            ((parse_mid_token acc.1 tok).1, acc.2 ++ (parse_mid_token acc.1 tok).2))
          ({ key := k, mods := m, key_device := kd }, logs) mids).1,
         (List.foldl (fun acc tok =>
            ((parse_mid_token acc.1 tok).1, acc.2 ++ (parse_mid_token acc.1 tok).2))
          ({ key := k, mods := m, key_device := kd }, logs) mids).2 ++
         [if drv.length = 1 then "missing driver name" else "not a valid driver"]) := by
      rw [List.foldl_append, List.foldl_cons, List.foldl_nil]
      rw [parse_mid_token, hsplit]
    cases post with
    | nil => rfl
    | cons actTok trailing =>
      simp only []
      cases hloc : env.locateAction actTok with
      | none => rfl
      | some act =>
        simp only []
        simp only [hstep]
        congr 1
        congr 1
        exact post_fold_shortcut _ _ _ _ _ _ _

/-- C5 (amended): loading is line oriented and the error handling is per
line as follows.  A line with no assignment sign is logged and the whole
line is skipped.  A key token in driver syntax (containing a colon) skips
the whole line: the missing-driver log for a one-character driver name, the
invalid-driver log otherwise (no external drivers are registered).  An
unresolvable action path skips the rest of the line, leaving the store
unchanged.  A line that leaves the store unchanged does not affect the
processing of the following lines.  However, a line whose bare key token
fails to parse (key 0, no modifiers) is only logged: the line still reaches
the non-interactive insert, with the key field 0.  And a mid-line token in
driver syntax (an unknown driver inside a move token) is only logged and
that token alone is skipped: the shortcut under construction is unchanged
and the line still produces its binding. -/
theorem dt_shortcuts_load_line_errors (env : CodecEnv) :
    (∀ (store : List DtShortcut) (keyTok drv rtok : String)
       (pre post : List String),
       keyTok ≠ "None" → splitFirstColon keyTok = some (drv, rtok) →
       load_line env store (.assign (keyTok :: pre) post) =
         (store, [if drv.length = 1 then "missing driver name"
                  else "not a valid driver"])) ∧
    (∀ (store : List DtShortcut) (keyTok actTok : String) (trailing : List String)
       (k m : Nat) (logs : List String),
       parse_key_token env keyTok = .cont k m 0 logs →
       env.locateAction actTok = none →
       (load_line env store (.assign [keyTok] (actTok :: trailing))).1 = store) ∧
    (∀ (store : List DtShortcut) (keyTok actTok : String) (act : Nat),
       keyTok ≠ "None" → splitFirstColon keyTok = none →
       env.keyParse keyTok = (0, 0) → env.locateAction actTok = some act →
       load_line env store (.assign [keyTok] [actTok]) =
         ((insert_shortcut env.viewsOf env.typeOf env.view false [] store
             { action := act }).store, ["no key name found"])) ∧
    (∀ (l : SCLine) (ls : List SCLine) (store : List DtShortcut),
       (load_line env store l).1 = store →
       (dt_shortcuts_load env false (l :: ls) store).1 =
         (dt_shortcuts_load env false ls store).1) ∧
    (∀ (store : List DtShortcut) (raw : String),
       load_line env store (.noAssign raw) = (store, ["line is not an assignment"])) ∧
    (∀ (s : DtShortcut) (tok drv rtok : String),
       splitFirstColon tok = some (drv, rtok) →
       parse_mid_token s tok = (s, [if drv.length = 1 then "missing driver name"
                                    else "not a valid driver"])) ∧
    (∀ (store : List DtShortcut) (keyTok badTok drv rtok : String)
       (mids post : List String),
       splitFirstColon badTok = some (drv, rtok) →
       (load_line env store (.assign (keyTok :: (mids ++ [badTok])) post)).1
         = (load_line env store (.assign (keyTok :: mids) post)).1) := by
  refine ⟨?_, ?_, ?_, ?_, ?_, ?_, ?_⟩
  · intro store keyTok drv rtok pre post hne hsplit
    rw [load_line]
    simp only [List.cons_append]
    rw [parse_key_token, if_neg hne, hsplit]
    by_cases hd : drv.length = 1 <;> simp [hd]
  · intro store keyTok actTok trailing k m logs hparse hloc
    rw [load_line]
    simp only [List.cons_append, List.nil_append, hparse]
    simp only [List.isEmpty_cons, List.tail_cons, List.foldl_nil]
    simp [hloc]
  · intro store keyTok actTok act hne hsplit hparse hloc
    rw [load_line]
    simp only [List.cons_append, List.nil_append]
    rw [parse_key_token, if_neg hne, hsplit]
    simp only [hparse]
    simp [hloc, shortcut_is_move, DT_SHORTCUT_EFFECT_DEFAULT_KEY]
  · intro l ls store hl
    simp only [dt_shortcuts_load, List.foldl_cons]
    have h1 : (if false = true then ([] : List DtShortcut) else store) = store := rfl
    rw [h1]
    calc (List.foldl (fun acc line =>
            let r := load_line env acc.1 line
            (r.1, acc.2 ++ r.2))
          ((load_line env store l).1,
           ([] : List String) ++ (load_line env store l).2) ls).1
        = (List.foldl (fun acc line =>
            let r := load_line env acc.1 line
            (r.1, acc.2 ++ r.2))
          ((load_line env store l).1, ([] : List String)) ls).1 := by
          exact load_fold_store env ls _ _
      _ = _ := by rw [hl]
  · intro store raw
    rfl
  · intro s tok drv rtok hsplit
    rw [parse_mid_token, hsplit]
  · intro store keyTok badTok drv rtok mids post hsplit
    exact mid_token_driver_skips_token env store keyTok badTok drv rtok mids post hsplit

/-- Witness for the load-time error handling at concrete environments and
lines: an unknown-driver key token skips its line, an unknown action path
leaves the store unchanged, an unparseable bare key token still reaches the
insert, a store-preserving line does not affect later lines, a line without
an assignment sign is skipped whole, and an unknown-driver mid token is
logged, skipped alone, and leaves the line producing its binding. -/
theorem dt_shortcuts_load_line_errors_witness :
    load_line envT [] (.assign ["pad:b1"] ["P7"]) =
      ([], [if ("pad" : String).length = 1 then "missing driver name"
            else "not a valid driver"]) ∧
    (load_line envT [] (.assign ["K100"] ["nosuch"])).1 = [] ∧
    load_line envT [] (.assign ["garbage"] ["P7"]) =
      ((insert_shortcut envT.viewsOf envT.typeOf envT.view false [] []
          { action := 7 }).store, ["no key name found"]) ∧
    (dt_shortcuts_load envT false
        [SCLine.assign ["pad:b1"] ["P7"], SCLine.assign ["K100"] ["P7"]] []).1 =
      (dt_shortcuts_load envT false [SCLine.assign ["K100"] ["P7"]] []).1 ∧
    load_line envT [] (.noAssign "broken line") =
      ([], ["line is not an assignment"]) ∧
    parse_mid_token { key := 100 } "pad:b1" =
      ({ key := 100 }, [if ("pad" : String).length = 1 then "missing driver name"
                        else "not a valid driver"]) ∧
    (load_line envT [] (.assign ["K100", "pad:b1"] ["P7"])).1 =
      (load_line envT [] (.assign ["K100"] ["P7"])).1 ∧
    load_line envT [] (.assign ["K100", "pad:b1"] ["P7"]) =
      ([{ views := 1, key := 100, action := 7 }], ["not a valid driver"]) :=
  ⟨(dt_shortcuts_load_line_errors envT).1 [] "pad:b1" "pad" "b1" [] ["P7"]
      (by decide) (by decide),
   (dt_shortcuts_load_line_errors envT).2.1 [] "K100" "nosuch" [] 100 0 []
      (by decide) (by decide),
   (dt_shortcuts_load_line_errors envT).2.2.1 [] "garbage" "P7" 7
      (by decide) (by decide) (by decide) (by decide),
   (dt_shortcuts_load_line_errors envT).2.2.2.1 (SCLine.assign ["pad:b1"] ["P7"])
      [SCLine.assign ["K100"] ["P7"]] [] (by decide),
   (dt_shortcuts_load_line_errors envT).2.2.2.2.1 [] "broken line",
   (dt_shortcuts_load_line_errors envT).2.2.2.2.2.1 { key := 100 } "pad:b1" "pad" "b1"
      (by decide),
   (dt_shortcuts_load_line_errors envT).2.2.2.2.2.2 [] "K100" "pad:b1" "pad" "b1" []
      ["P7"] (by decide),
   by decide⟩

/-! ### C10: reinserting an identical binding -/

/-- The scan loop's result does not depend on the fuel, whenever the fuel
exceeds the loop measure store.length - i: every recursive step consumes one
unit of fuel while shrinking the measure, so the fuel handed over by
run_phase (store.length - i + 1) never runs out and the fuel-exhausted
fallback of scan_clashes is unreachable. -/
theorem scan_clashes_fuel_irrelevant (confirm removeEx : Bool) (view real_views : Nat)
    (s : DtShortcut) :
    ∀ (f1 f2 : Nat) (store : List DtShortcut) (i : Nat) (labels : List Nat)
      (answers : List Bool) (prompts : Nat),
      store.length - i < f1 → store.length - i < f2 →
      scan_clashes confirm removeEx view real_views s f1 store i labels answers prompts =
      scan_clashes confirm removeEx view real_views s f2 store i labels answers prompts := by
  intro f1
  induction f1 with
  | zero => intro f2 store i labels answers prompts h1; omega
  | succ g1 ih =>
    intro f2 store i labels answers prompts h1 h2
    match f2, h2 with
    | g2 + 1, h2 =>
      rw [scan_clashes, scan_clashes]
      cases hg : store.get? i with
      | none => rfl
      | some e =>
        have hi : i < store.length := by
          by_contra hge
          rw [List.get?_eq_none.mpr (Nat.le_of_not_lt hge)] at hg
          simp at hg
        have hlen : (remove_shortcut store i).length = store.length - 1 := by
          unfold remove_shortcut
          rw [hg]
          simp only
          split
          · have hc : ∀ (st : List DtShortcut) (j : Nat),
                (clearDirAt st j).length = st.length := by
              intro st j; unfold clearDirAt; cases st.get? j <;> simp
            simp [List.length_eraseIdx, hc, hi]
          · simp [List.length_eraseIdx, hi]
        simp only []
        split
        · rfl
        · split
          · rfl
          · split
            · split
              · exact ih g2 (remove_shortcut store i) i labels answers prompts
                  (by omega) (by omega)
              · exact ih g2 store (i + 1) (labels ++ [e.action]) answers prompts
                  (by omega) (by omega)
            · exact ih g2 store (i + 1) labels answers prompts (by omega) (by omega)

/-- Helper: when the entry at the looked-up index compares equal, has the same
action, is not a non-default-effect move, and already carries the candidate's
settings, the non-interactive scan stops immediately, leaving the store
unchanged and showing no dialog (the identical-binding branch of
insert_shortcut, accelerators.c lines 796-809, with confirm clear). -/
theorem scan_clashes_identical_stop (removeEx : Bool) (view real_views fuel : Nat)
    (s e0 : DtShortcut) (store : List DtShortcut) (i : Nat)
    (labels : List Nat) (answers : List Bool) (prompts : Nat)
    (hget : store.get? i = some e0)
    (hcmp : shortcut_compare_func s e0 view = 0)
    (hact : e0.action = s.action)
    (hmove : ¬ (shortcut_is_move e0 = true ∧
        e0.effect ≠ DT_SHORTCUT_EFFECT_DEFAULT_MOVE))
    (hsettings : e0.element = s.element ∧ e0.effect = s.effect ∧
                 e0.speed = s.speed ∧ e0.inst = s.inst) :
    scan_clashes false removeEx view real_views s (fuel + 1) store i labels answers prompts
      = Sum.inl ⟨false, store, prompts⟩ := by
  rw [scan_clashes, hget]
  simp only []
  rw [if_neg (by simpa using hcmp), if_pos hact]
  rw [if_neg (by simpa using hmove)]
  rw [if_neg (by simp [hsettings.1, hsettings.2.1, hsettings.2.2.1, hsettings.2.2.2])]
  rfl

/-- C10: in non-interactive mode, when the first entry of the equal run for
the candidate's slot is an identical binding (same action, element, effect,
speed and instance), insert_shortcut reports failure and leaves the store
unchanged; the claim's unconditional "leaves the binding store unchanged" is
amended by the collision case below, where a clashing entry precedes the
identical one in the run and is removed despite the failure return. -/
theorem insert_shortcut_identical_no_op (viewsOf typeOf : Nat → Nat) (view : Nat)
    (answers : List Bool) (store : List DtShortcut) (sc e0 : DtShortcut) (i : Nat)
    (hty : typeOf sc.action ≠ DT_ACTION_TYPE_KEY_PRESSED)
    (hkey : sc.move_device = 0 ∧ sc.move = 0)
    (hfind : store.findIdx? (fun e =>
        shortcut_compare_func { sc with views := viewsOf sc.action } e view == 0) = some i)
    (hget : store.get? i = some e0)
    (hcmp : shortcut_compare_func { sc with views := viewsOf sc.action } e0 view = 0)
    (hact : e0.action = sc.action)
    (hsettings : e0.element = sc.element ∧ e0.effect = sc.effect ∧
                 e0.speed = sc.speed ∧ e0.inst = sc.inst) :
    insert_shortcut viewsOf typeOf view false answers store sc = ⟨false, store, 0⟩ := by
  have hties := (shortcut_compare_eq_zero_iff _ _ _).mp hcmp
  have hmd0 : e0.move_device = 0 := by
    have h := hties.2.2.2.2.2.1
    simp at h
    omega
  have hmv0 : e0.move = 0 := by
    have h := hties.2.2.2.2.2.2.1
    simp at h
    omega
  have hmove : ¬ (shortcut_is_move e0 = true ∧
      e0.effect ≠ DT_SHORTCUT_EFFECT_DEFAULT_MOVE) := by
    intro hc
    have h := hc.1
    rw [shortcut_is_move] at h
    simp [hmd0, hmv0] at h
  rw [insert_shortcut]
  rw [if_neg (fun hc => hty hc.2.1)]
  rw [insert_loop, run_phase]
  have hs : ({ { sc with views := viewsOf sc.action } with
      views := ({ sc with views := viewsOf sc.action } : DtShortcut).views } : DtShortcut) =
      { sc with views := viewsOf sc.action } := rfl
  rw [hs, hfind]
  simp only []
  rw [scan_clashes_identical_stop _ _ _ _ _ _ _ _ _ _ _ hget hcmp hact hmove hsettings]

/-- C10: counterexample to the claimed unconditional "leaves the binding
store unchanged".  With confirm clear, insert_shortcut sets remove_existing,
so a clashing entry (different action, overlapping views) that precedes the
identical match in the equal run is removed from the store even though the
function still returns failure: reinserting keyBinding into
[clashBinding, keyBinding] returns false yet shrinks the store to
[keyBinding]. -/
theorem insert_shortcut_identical_claim_counterexample :
    (insert_shortcut viewsOfT typeOfT 4 false [] [clashBinding, keyBinding] keyBinding).ok
      = false ∧
    (insert_shortcut viewsOfT typeOfT 4 false [] [clashBinding, keyBinding] keyBinding).store
      ≠ [clashBinding, keyBinding] := by decide

/-- Witness for the identical-reinsert no-op, together with a concrete
shortcuts file loaded a second time without clearing: the reinsert of its
one binding finds the identical entry first in its run, so the second load
leaves the store unchanged. -/
theorem insert_shortcut_identical_no_op_witness :
    insert_shortcut viewsOfT typeOfT 4 false [] [keyBinding] keyBinding
      = ⟨false, [keyBinding], 0⟩ ∧
    (dt_shortcuts_load envT false [SCLine.assign ["K100"] ["P7"]]
        (dt_shortcuts_load envT true [SCLine.assign ["K100"] ["P7"]] []).1).1
      = (dt_shortcuts_load envT true [SCLine.assign ["K100"] ["P7"]] []).1 :=
  ⟨insert_shortcut_identical_no_op viewsOfT typeOfT 4 [] [keyBinding] keyBinding keyBinding 0
    (by decide) (by decide) (by decide) (by decide) (by decide) (by decide) (by decide),
   by decide⟩

/-! ### C2: direction-split and unsplit -/

/-- Masking distributes over adjoining bits disjoint from a. -/
theorem or_and_eq_of_and_eq_zero (a d m : Nat) (h : a &&& m = 0) :
    (a ||| d) &&& m = d &&& m := by
  apply Nat.eq_of_testBit_eq
  intro i
  have h0 : (a &&& m).testBit i = (0 : Nat).testBit i := by rw [h]
  rw [Nat.testBit_and, Nat.zero_testBit] at h0
  rw [Nat.testBit_and, Nat.testBit_or, Nat.testBit_and]
  cases ha : a.testBit i <;> cases hm : m.testBit i <;> simp_all

/-- The xor of two disjoint-bit extensions of the same word is the xor of the
extensions. -/
theorem or_or_xor (a d1 d2 : Nat) (h1 : a &&& d1 = 0) (h2 : a &&& d2 = 0) :
    (a ||| d1) ^^^ (a ||| d2) = d1 ^^^ d2 := by
  apply Nat.eq_of_testBit_eq
  intro i
  have g1 : (a &&& d1).testBit i = (0 : Nat).testBit i := by rw [h1]
  have g2 : (a &&& d2).testBit i = (0 : Nat).testBit i := by rw [h2]
  rw [Nat.testBit_and, Nat.zero_testBit] at g1 g2
  rw [Nat.testBit_xor, Nat.testBit_or, Nat.testBit_or, Nat.testBit_xor]
  cases ha : a.testBit i <;> cases hb : d1.testBit i <;> cases hc : d2.testBit i <;> simp_all

/-- Helper: when the entry at the looked-up index compares equal, has the same
action, and is a move with a non-default effect, the scan takes the split
branch (accelerators.c lines 747-760) whenever the mode is non-interactive or
the dialog is answered yes: the stored entry gets the opposite direction bit,
and the candidate is added; interactive mode consumes one dialog answer. -/
theorem scan_clashes_split (confirm removeEx : Bool) (view real_views fuel : Nat)
    (s e0 : DtShortcut) (store : List DtShortcut) (i : Nat)
    (labels : List Nat) (answers : List Bool) (prompts : Nat)
    (hget : store.get? i = some e0)
    (hcmp : shortcut_compare_func s e0 view = 0)
    (hact : e0.action = s.action)
    (hsplit : shortcut_is_move e0 = true ∧
        e0.effect ≠ DT_SHORTCUT_EFFECT_DEFAULT_MOVE)
    (hans : confirm = true → answers.headD false = true) :
    scan_clashes confirm removeEx view real_views s (fuel + 1) store i labels answers prompts
      = Sum.inl ⟨true, add_shortcut view
          (store.set i { e0 with flags := e0.flags |||
            (if s.flags &&& DT_SHORTCUT_FLAG_DIR_UP ≠ 0 then DT_SHORTCUT_FLAG_DIR_DOWN
             else DT_SHORTCUT_FLAG_DIR_UP) })
          (if s.effect = DT_SHORTCUT_EFFECT_DEFAULT_MOVE
           then { s with effect := DT_SHORTCUT_EFFECT_DEFAULT_KEY } else s),
          if confirm then prompts + 1 else prompts⟩ := by
  rw [scan_clashes, hget]
  simp only []
  rw [if_neg (by simpa using hcmp), if_pos hact, if_pos hsplit]
  cases confirm with
  | false => rfl
  | true =>
    rw [hans rfl]
    rfl

/-- Helper: insert_shortcut, when the looked-up run starts with a same-action
move entry with non-default effect: the split branch fires and reports
success, both non-interactively and when the confirmation dialog is answered
yes (one dialog shown). -/
theorem insert_shortcut_split (viewsOf typeOf : Nat → Nat) (view : Nat) (confirm : Bool)
    (answers : List Bool) (store : List DtShortcut) (sc e0 : DtShortcut) (i : Nat)
    (hty : typeOf sc.action ≠ DT_ACTION_TYPE_KEY_PRESSED)
    (hfind : store.findIdx? (fun x =>
        shortcut_compare_func { sc with views := viewsOf sc.action } x view == 0) = some i)
    (hget : store.get? i = some e0)
    (hcmp : shortcut_compare_func { sc with views := viewsOf sc.action } e0 view = 0)
    (hact : e0.action = sc.action)
    (hsplit : shortcut_is_move e0 = true ∧
        e0.effect ≠ DT_SHORTCUT_EFFECT_DEFAULT_MOVE)
    (heff : sc.effect ≠ DT_SHORTCUT_EFFECT_DEFAULT_MOVE)
    (hans : confirm = true → answers.headD false = true) :
    insert_shortcut viewsOf typeOf view confirm answers store sc =
      ⟨true, add_shortcut view
        (store.set i { e0 with flags := e0.flags |||
          (if sc.flags &&& DT_SHORTCUT_FLAG_DIR_UP ≠ 0 then DT_SHORTCUT_FLAG_DIR_DOWN
           else DT_SHORTCUT_FLAG_DIR_UP) })
        { sc with views := viewsOf sc.action }, if confirm then 1 else 0⟩ := by
  rw [insert_shortcut]
  rw [if_neg (fun hc => hty hc.2.1)]
  rw [insert_loop, run_phase]
  have hs : ({ { sc with views := viewsOf sc.action } with
      views := ({ sc with views := viewsOf sc.action } : DtShortcut).views } : DtShortcut) =
      { sc with views := viewsOf sc.action } := rfl
  rw [hs, hfind]
  simp only []
  rw [scan_clashes_split _ _ _ _ _ _ _ _ _ _ _ _ hget hcmp hact hsplit hans]
  have heff1 : ¬ (({ sc with views := viewsOf sc.action } : DtShortcut).effect
      = DT_SHORTCUT_EFFECT_DEFAULT_MOVE) := heff
  rw [if_neg heff1]

/-- Removing the first element of a direction-split pair: the record is
un-directioned, the sibling (the next record, since the removed one is
first) is un-directioned too, and the record is erased (remove_shortcut,
accelerators.c lines 629-646). -/
theorem remove_split_first (e u d0 : DtShortcut)
    (hu : u.flags &&& DT_SHORTCUT_FLAG_DIR_MASK ≠ 0)
    (hcu : ({ u with flags := clearDir u.flags } : DtShortcut) = e)
    (hcd : ({ d0 with flags := clearDir d0.flags } : DtShortcut) = e) :
    remove_shortcut [u, d0] 0 = [e] := by
  rw [remove_shortcut]
  rw [show ([u, d0].get? 0) = some u from rfl]
  simp only []
  rw [if_pos hu]
  show [({ d0 with flags := clearDir d0.flags } : DtShortcut)] = [e]
  rw [hcd]

/-- Removing the second element of a direction-split pair: the record is
un-directioned, its sibling is the previous record (which still compares
equal under the record's own views), the sibling is un-directioned and the
record is erased. -/
theorem remove_split_second (e u d0 : DtShortcut)
    (hd0 : d0.flags &&& DT_SHORTCUT_FLAG_DIR_MASK ≠ 0)
    (hcu : ({ u with flags := clearDir u.flags } : DtShortcut) = e)
    (hcd : ({ d0 with flags := clearDir d0.flags } : DtShortcut) = e)
    (hcmp : shortcut_compare_func e u e.views = 0) :
    remove_shortcut [u, d0] 1 = [e] := by
  rw [remove_shortcut]
  rw [show ([u, d0].get? 1) = some d0 from rfl]
  simp only []
  rw [if_pos hd0]
  show (clearDirAt [u, ({ d0 with flags := clearDir d0.flags } : DtShortcut)]
      (if shortcut_compare_func { d0 with flags := clearDir d0.flags } u
          ({ d0 with flags := clearDir d0.flags } : DtShortcut).views ≠ 0
       then 1 + 1 else 1 - 1)).eraseIdx 1 = [e]
  rw [hcd]
  rw [if_neg (by simpa using hcmp)]
  show [({ u with flags := clearDir u.flags } : DtShortcut)] = [e]
  rw [hcu]

/-- C2 (amended): assigning a directional move (either direction bit) to a
non-directional move binding with a non-default effect — in non-interactive
mode, or interactively with the confirmation dialog answered yes — splits the
binding into the adjacent up/down pair (interactive mode showing exactly one
dialog), and removing either half restores the original binding. -/
theorem insert_shortcut_split_unsplit (viewsOf typeOf : Nat → Nat) (view : Nat)
    (confirm : Bool) (answers : List Bool) (e : DtShortcut) (d : Nat)
    (hk : ∃ k, view = 2 ^ k)
    (hd : d = DT_SHORTCUT_FLAG_DIR_UP ∨ d = DT_SHORTCUT_FLAG_DIR_DOWN)
    (hmove : shortcut_is_move e = true)
    (heff : e.effect ≠ DT_SHORTCUT_EFFECT_DEFAULT_MOVE)
    (hty : typeOf e.action ≠ DT_ACTION_TYPE_KEY_PRESSED)
    (hviews : viewsOf e.action = e.views)
    (hans : confirm = true → answers.headD false = true) :
    insert_shortcut viewsOf typeOf view confirm answers [e]
        { e with flags := e.flags ||| d } =
      ⟨true, [{ e with flags := e.flags ||| DT_SHORTCUT_FLAG_DIR_UP },
              { e with flags := e.flags ||| DT_SHORTCUT_FLAG_DIR_DOWN }],
       if confirm then 1 else 0⟩ ∧
    remove_shortcut [{ e with flags := e.flags ||| DT_SHORTCUT_FLAG_DIR_UP },
                     { e with flags := e.flags ||| DT_SHORTCUT_FLAG_DIR_DOWN }] 0 = [e] ∧
    remove_shortcut [{ e with flags := e.flags ||| DT_SHORTCUT_FLAG_DIR_UP },
                     { e with flags := e.flags ||| DT_SHORTCUT_FLAG_DIR_DOWN }] 1 = [e] := by
  have hf : e.flags &&& DT_SHORTCUT_FLAG_DIR_MASK = 0 := by
    simp [shortcut_is_move] at hmove
    exact hmove.2
  have hf512 : e.flags &&& DT_SHORTCUT_FLAG_DIR_UP = 0 :=
    and_eq_zero_of_or_eq _ _ _ hf (by decide)
  have hf1024 : e.flags &&& DT_SHORTCUT_FLAG_DIR_DOWN = 0 :=
    and_eq_zero_of_or_eq _ _ _ hf (by decide)
  have hclrup : clearDir (e.flags ||| DT_SHORTCUT_FLAG_DIR_UP) = e.flags := by
    rw [clearDir, or_and_eq_of_and_eq_zero _ _ _ hf]
    rw [show DT_SHORTCUT_FLAG_DIR_UP &&& DT_SHORTCUT_FLAG_DIR_MASK
        = DT_SHORTCUT_FLAG_DIR_UP from by decide]
    exact or_xor_cancel_of_and_eq_zero _ _ hf512
  have hclrdn : clearDir (e.flags ||| DT_SHORTCUT_FLAG_DIR_DOWN) = e.flags := by
    rw [clearDir, or_and_eq_of_and_eq_zero _ _ _ hf]
    rw [show DT_SHORTCUT_FLAG_DIR_DOWN &&& DT_SHORTCUT_FLAG_DIR_MASK
        = DT_SHORTCUT_FLAG_DIR_DOWN from by decide]
    exact or_xor_cancel_of_and_eq_zero _ _ hf1024
  have hcu : ({ { e with flags := e.flags ||| DT_SHORTCUT_FLAG_DIR_UP } with
      flags := clearDir ({ e with flags := e.flags ||| DT_SHORTCUT_FLAG_DIR_UP }
        : DtShortcut).flags } : DtShortcut) = e := by
    rw [show clearDir ({ e with flags := e.flags ||| DT_SHORTCUT_FLAG_DIR_UP }
        : DtShortcut).flags = e.flags from hclrup]
  have hcd : ({ { e with flags := e.flags ||| DT_SHORTCUT_FLAG_DIR_DOWN } with
      flags := clearDir ({ e with flags := e.flags ||| DT_SHORTCUT_FLAG_DIR_DOWN }
        : DtShortcut).flags } : DtShortcut) = e := by
    rw [show clearDir ({ e with flags := e.flags ||| DT_SHORTCUT_FLAG_DIR_DOWN }
        : DtShortcut).flags = e.flags from hclrdn]
  have hbu : ({ e with flags := e.flags ||| DT_SHORTCUT_FLAG_DIR_UP }
      : DtShortcut).flags &&& DT_SHORTCUT_FLAG_DIR_MASK ≠ 0 := by
    show (e.flags ||| DT_SHORTCUT_FLAG_DIR_UP) &&& DT_SHORTCUT_FLAG_DIR_MASK ≠ 0
    rw [or_and_eq_of_and_eq_zero _ _ _ hf]
    decide
  have hbd : ({ e with flags := e.flags ||| DT_SHORTCUT_FLAG_DIR_DOWN }
      : DtShortcut).flags &&& DT_SHORTCUT_FLAG_DIR_MASK ≠ 0 := by
    show (e.flags ||| DT_SHORTCUT_FLAG_DIR_DOWN) &&& DT_SHORTCUT_FLAG_DIR_MASK ≠ 0
    rw [or_and_eq_of_and_eq_zero _ _ _ hf]
    decide
  have hties : ∀ (v dd : Nat), dd &&& DT_SHORTCUT_FLAG_DIR_MASK = dd →
      dd ≠ DT_SHORTCUT_FLAG_DIR_MASK → e.flags &&& dd = 0 →
      shortcut_compare_func { e with flags := e.flags ||| dd } e v = 0 := by
    intro v dd h1 h2 h3
    apply (shortcut_compare_eq_zero_iff _ _ _).mpr
    unfold slot_ties
    refine ⟨?_, rfl, rfl, ?_, ?_, rfl, rfl, rfl⟩
    · by_cases hv : e.views = 0
      · exact Or.inl ⟨hv, hv⟩
      · exact Or.inr ⟨hv, hv, rfl⟩
    · show ((e.flags ||| dd) ^^^ e.flags) &&& DT_SHORTCUT_FLAG_DIR_MASK
        = (e.flags ||| dd) ^^^ e.flags
      rw [or_xor_self_of_and_eq_zero _ _ h3]
      exact h1
    · show (e.flags ||| dd) ^^^ e.flags ≠ DT_SHORTCUT_FLAG_DIR_MASK
      rw [or_xor_self_of_and_eq_zero _ _ h3]
      exact h2
  have hcmpE : shortcut_compare_func e { e with flags := e.flags |||
      DT_SHORTCUT_FLAG_DIR_UP } e.views = 0 := by
    apply (shortcut_compare_eq_zero_iff _ _ _).mpr
    unfold slot_ties
    have hx : e.flags ^^^ (e.flags ||| DT_SHORTCUT_FLAG_DIR_UP)
        = DT_SHORTCUT_FLAG_DIR_UP := by
      rw [Nat.xor_comm]
      exact or_xor_self_of_and_eq_zero _ _ hf512
    refine ⟨?_, rfl, rfl, ?_, ?_, rfl, rfl, rfl⟩
    · by_cases hv : e.views = 0
      · exact Or.inl ⟨hv, hv⟩
      · exact Or.inr ⟨hv, hv, rfl⟩
    · show (e.flags ^^^ (e.flags ||| DT_SHORTCUT_FLAG_DIR_UP)) &&&
        DT_SHORTCUT_FLAG_DIR_MASK = e.flags ^^^ (e.flags ||| DT_SHORTCUT_FLAG_DIR_UP)
      rw [hx]
      decide
    · show e.flags ^^^ (e.flags ||| DT_SHORTCUT_FLAG_DIR_UP)
        ≠ DT_SHORTCUT_FLAG_DIR_MASK
      rw [hx]
      decide
  refine ⟨?_, remove_split_first e _ _ hbu hcu hcd,
          remove_split_second e _ _ hbd hcu hcd hcmpE⟩
  rcases hd with rfl | rfl
  · -- d = DIR_UP
    have hrec : ({ { e with flags := e.flags ||| DT_SHORTCUT_FLAG_DIR_UP } with
        views := viewsOf ({ e with flags := e.flags ||| DT_SHORTCUT_FLAG_DIR_UP }
          : DtShortcut).action } : DtShortcut) =
        { e with flags := e.flags ||| DT_SHORTCUT_FLAG_DIR_UP } := by
      rw [show viewsOf ({ e with flags := e.flags ||| DT_SHORTCUT_FLAG_DIR_UP }
          : DtShortcut).action = e.views from hviews]
    have hcmp1 : shortcut_compare_func ({ { e with
        flags := e.flags ||| DT_SHORTCUT_FLAG_DIR_UP } with
        views := viewsOf ({ e with flags := e.flags ||| DT_SHORTCUT_FLAG_DIR_UP }
          : DtShortcut).action } : DtShortcut) e view = 0 := by
      rw [hrec]
      exact hties view DT_SHORTCUT_FLAG_DIR_UP (by decide) (by decide) hf512
    have hfind : ([e].findIdx? (fun x => shortcut_compare_func ({ { e with
        flags := e.flags ||| DT_SHORTCUT_FLAG_DIR_UP } with
        views := viewsOf ({ e with flags := e.flags ||| DT_SHORTCUT_FLAG_DIR_UP }
          : DtShortcut).action } : DtShortcut) x view == 0)) = some 0 := by
      simp [List.findIdx?_cons, hcmp1]
    rw [insert_shortcut_split viewsOf typeOf view confirm answers [e]
        { e with flags := e.flags ||| DT_SHORTCUT_FLAG_DIR_UP } e 0 hty hfind rfl hcmp1 rfl
        ⟨hmove, heff⟩ heff hans]
    rw [hrec]
    have hb : ({ e with flags := e.flags ||| DT_SHORTCUT_FLAG_DIR_UP }
        : DtShortcut).flags &&& DT_SHORTCUT_FLAG_DIR_UP ≠ 0 := by
      show (e.flags ||| DT_SHORTCUT_FLAG_DIR_UP) &&& DT_SHORTCUT_FLAG_DIR_UP ≠ 0
      rw [or_and_eq_of_and_eq_zero _ _ _ hf512]
      decide
    rw [if_pos hb]
    rw [show ([e].set 0 ({ e with flags := e.flags ||| DT_SHORTCUT_FLAG_DIR_DOWN }
        : DtShortcut)) = [{ e with flags := e.flags ||| DT_SHORTCUT_FLAG_DIR_DOWN }]
        from rfl]
    rw [add_shortcut]
    have hlt : shortcut_compare_func { e with flags := e.flags ||| DT_SHORTCUT_FLAG_DIR_UP }
        { e with flags := e.flags ||| DT_SHORTCUT_FLAG_DIR_DOWN } view < 0 := by
      apply (shortcut_compare_neg_iff _ _ _ hk).mpr
      unfold code_chain_lt
      refine Or.inr ⟨rfl, Or.inr ⟨rfl, Or.inr ⟨rfl, Or.inr ⟨?_,
        Or.inr ⟨rfl, Or.inr ⟨rfl, Or.inr ⟨rfl, ?_, ?_⟩⟩⟩⟩⟩⟩⟩
      · show ((e.flags ||| DT_SHORTCUT_FLAG_DIR_UP) ^^^
          (e.flags ||| DT_SHORTCUT_FLAG_DIR_DOWN)) &&& DT_SHORTCUT_FLAG_DIR_MASK
          = (e.flags ||| DT_SHORTCUT_FLAG_DIR_UP) ^^^
            (e.flags ||| DT_SHORTCUT_FLAG_DIR_DOWN)
        rw [or_or_xor _ _ _ hf512 hf1024]
        decide
      · show (e.flags ||| DT_SHORTCUT_FLAG_DIR_UP) ^^^
          (e.flags ||| DT_SHORTCUT_FLAG_DIR_DOWN) = DT_SHORTCUT_FLAG_DIR_MASK
        rw [or_or_xor _ _ _ hf512 hf1024]
        decide
      · show (e.flags ||| DT_SHORTCUT_FLAG_DIR_UP) <
          (e.flags ||| DT_SHORTCUT_FLAG_DIR_DOWN)
        exact or_dir_up_lt_down e.flags hf
    rw [if_pos hlt]
  · -- d = DIR_DOWN
    have hrec : ({ { e with flags := e.flags ||| DT_SHORTCUT_FLAG_DIR_DOWN } with
        views := viewsOf ({ e with flags := e.flags ||| DT_SHORTCUT_FLAG_DIR_DOWN }
          : DtShortcut).action } : DtShortcut) =
        { e with flags := e.flags ||| DT_SHORTCUT_FLAG_DIR_DOWN } := by
      rw [show viewsOf ({ e with flags := e.flags ||| DT_SHORTCUT_FLAG_DIR_DOWN }
          : DtShortcut).action = e.views from hviews]
    have hcmp1 : shortcut_compare_func ({ { e with
        flags := e.flags ||| DT_SHORTCUT_FLAG_DIR_DOWN } with
        views := viewsOf ({ e with flags := e.flags ||| DT_SHORTCUT_FLAG_DIR_DOWN }
          : DtShortcut).action } : DtShortcut) e view = 0 := by
      rw [hrec]
      exact hties view DT_SHORTCUT_FLAG_DIR_DOWN (by decide) (by decide) hf1024
    have hfind : ([e].findIdx? (fun x => shortcut_compare_func ({ { e with
        flags := e.flags ||| DT_SHORTCUT_FLAG_DIR_DOWN } with
        views := viewsOf ({ e with flags := e.flags ||| DT_SHORTCUT_FLAG_DIR_DOWN }
          : DtShortcut).action } : DtShortcut) x view == 0)) = some 0 := by
      simp [List.findIdx?_cons, hcmp1]
    rw [insert_shortcut_split viewsOf typeOf view confirm answers [e]
        { e with flags := e.flags ||| DT_SHORTCUT_FLAG_DIR_DOWN } e 0 hty hfind rfl hcmp1 rfl
        ⟨hmove, heff⟩ heff hans]
    rw [hrec]
    have hb : ¬ (({ e with flags := e.flags ||| DT_SHORTCUT_FLAG_DIR_DOWN }
        : DtShortcut).flags &&& DT_SHORTCUT_FLAG_DIR_UP ≠ 0) := by
      show ¬ ((e.flags ||| DT_SHORTCUT_FLAG_DIR_DOWN) &&& DT_SHORTCUT_FLAG_DIR_UP ≠ 0)
      rw [or_and_eq_of_and_eq_zero _ _ _ hf512]
      decide
    rw [if_neg hb]
    rw [show ([e].set 0 ({ e with flags := e.flags ||| DT_SHORTCUT_FLAG_DIR_UP }
        : DtShortcut)) = [{ e with flags := e.flags ||| DT_SHORTCUT_FLAG_DIR_UP }]
        from rfl]
    rw [add_shortcut]
    have hnlt : ¬ (shortcut_compare_func
        { e with flags := e.flags ||| DT_SHORTCUT_FLAG_DIR_DOWN }
        { e with flags := e.flags ||| DT_SHORTCUT_FLAG_DIR_UP } view < 0) := by
      intro hneg
      have hcl := (shortcut_compare_neg_iff _ _ _ hk).mp hneg
      unfold code_chain_lt at hcl
      rcases hcl with h | ⟨_, h | ⟨_, h | ⟨_, ⟨hne, _⟩ |
        ⟨_, h | ⟨_, h | ⟨_, h | ⟨_, _, hflt⟩⟩⟩⟩⟩⟩⟩
      · exact absurd h (lt_irrefl _)
      · exact absurd h (lt_irrefl _)
      · exact absurd h (lt_irrefl _)
      · exact hne (by
          show ((e.flags ||| DT_SHORTCUT_FLAG_DIR_DOWN) ^^^
            (e.flags ||| DT_SHORTCUT_FLAG_DIR_UP)) &&& DT_SHORTCUT_FLAG_DIR_MASK
            = (e.flags ||| DT_SHORTCUT_FLAG_DIR_DOWN) ^^^
              (e.flags ||| DT_SHORTCUT_FLAG_DIR_UP)
          rw [or_or_xor _ _ _ hf1024 hf512]
          decide)
      · exact absurd h (lt_irrefl _)
      · exact absurd h (lt_irrefl _)
      · exact absurd h (lt_irrefl _)
      · have h2 := or_dir_up_lt_down e.flags hf
        have hflt2 : (e.flags ||| DT_SHORTCUT_FLAG_DIR_DOWN) <
            (e.flags ||| DT_SHORTCUT_FLAG_DIR_UP) := hflt
        omega
    rw [if_neg hnlt]
    rw [show add_shortcut view []
        ({ e with flags := e.flags ||| DT_SHORTCUT_FLAG_DIR_DOWN } : DtShortcut)
        = [{ e with flags := e.flags ||| DT_SHORTCUT_FLAG_DIR_DOWN }] from rfl]

/-- C2: counterexample to the unqualified claim.  The stored non-directional
move binding carries the default-move effect sentinel (-1); the split branch
of insert_shortcut additionally requires the stored effect to differ from
that sentinel, so assigning a directional move to it does not produce the
up/down pair: the call fails and the store keeps its single entry. -/
theorem insert_shortcut_split_claim_counterexample :
    insert_shortcut (fun _ => 1) typeOfT 1 false [] [moveBindingDefEff]
        { moveBindingDefEff with flags := DT_SHORTCUT_FLAG_DIR_UP }
      = ⟨false, [moveBindingDefEff], 0⟩ ∧
    shortcut_is_move moveBindingDefEff = true ∧
    (insert_shortcut (fun _ => 1) typeOfT 1 false [] [moveBindingDefEff]
        { moveBindingDefEff with flags := DT_SHORTCUT_FLAG_DIR_UP }).store.length ≠ 2 := by
  decide

theorem insert_shortcut_split_unsplit_witness :
    (insert_shortcut (fun _ => 1) typeOfT 1 true [true] [moveBinding]
        { moveBinding with flags := moveBinding.flags ||| DT_SHORTCUT_FLAG_DIR_UP } =
      ⟨true, [{ moveBinding with flags := moveBinding.flags ||| DT_SHORTCUT_FLAG_DIR_UP },
              { moveBinding with flags := moveBinding.flags ||| DT_SHORTCUT_FLAG_DIR_DOWN }],
       1⟩ ∧
     remove_shortcut
       [{ moveBinding with flags := moveBinding.flags ||| DT_SHORTCUT_FLAG_DIR_UP },
        { moveBinding with flags := moveBinding.flags ||| DT_SHORTCUT_FLAG_DIR_DOWN }] 0
       = [moveBinding] ∧
     remove_shortcut
       [{ moveBinding with flags := moveBinding.flags ||| DT_SHORTCUT_FLAG_DIR_UP },
        { moveBinding with flags := moveBinding.flags ||| DT_SHORTCUT_FLAG_DIR_DOWN }] 1
       = [moveBinding]) ∧
    (insert_shortcut (fun _ => 1) typeOfT 1 false [] [moveBinding]
        { moveBinding with flags := moveBinding.flags ||| DT_SHORTCUT_FLAG_DIR_UP } =
      ⟨true, [{ moveBinding with flags := moveBinding.flags ||| DT_SHORTCUT_FLAG_DIR_UP },
              { moveBinding with flags := moveBinding.flags ||| DT_SHORTCUT_FLAG_DIR_DOWN }],
       0⟩ ∧
     remove_shortcut
       [{ moveBinding with flags := moveBinding.flags ||| DT_SHORTCUT_FLAG_DIR_UP },
        { moveBinding with flags := moveBinding.flags ||| DT_SHORTCUT_FLAG_DIR_DOWN }] 0
       = [moveBinding] ∧
     remove_shortcut
       [{ moveBinding with flags := moveBinding.flags ||| DT_SHORTCUT_FLAG_DIR_UP },
        { moveBinding with flags := moveBinding.flags ||| DT_SHORTCUT_FLAG_DIR_DOWN }] 1
       = [moveBinding]) :=
  ⟨insert_shortcut_split_unsplit (fun _ => 1) typeOfT 1 true [true] moveBinding
      DT_SHORTCUT_FLAG_DIR_UP ⟨0, by decide⟩ (Or.inl rfl) (by decide) (by decide)
      (by decide) (by decide) (fun _ => rfl),
   insert_shortcut_split_unsplit (fun _ => 1) typeOfT 1 false [] moveBinding
      DT_SHORTCUT_FLAG_DIR_UP ⟨0, by decide⟩ (Or.inl rfl) (by decide) (by decide)
      (by decide) (by decide) (fun h => absurd h (by decide))⟩

/-! ### C3: declining the first confirmation dialog -/

/-- With confirmation on, remove_existing clear and a leading "no" answer,
the scan either aborts at a same-action entry (one dialog, store unchanged)
or runs off the equal run without touching the store or the answers. -/
theorem scan_false_preserves (view real_views : Nat) (s : DtShortcut) :
    ∀ (fuel : Nat) (store : List DtShortcut) (i : Nat) (labels : List Nat)
      (rest : List Bool) (prompts : Nat),
      scan_clashes true false view real_views s fuel store i labels (false :: rest) prompts
        = Sum.inl ⟨false, store, prompts + 1⟩ ∨
      ∃ labels2, scan_clashes true false view real_views s fuel store i labels
          (false :: rest) prompts = Sum.inr (store, labels2, false :: rest, prompts) := by
  intro fuel
  induction fuel with
  | zero => intro store i labels rest prompts; right; exact ⟨labels, rfl⟩
  | succ g ih =>
    intro store i labels rest prompts
    rw [scan_clashes]
    cases hg : store.get? i with
    | none => right; exact ⟨labels, rfl⟩
    | some e =>
      simp only []
      split
      · right; exact ⟨labels, rfl⟩
      · split
        · split
          · left; rfl
          · split
            · left; rfl
            · left; rfl
        · split
          · rw [if_neg (by decide)]
            exact ih store (i + 1) (labels ++ [e.action]) rest prompts
          · exact ih store (i + 1) labels rest prompts

/-- One lookup phase under the same conditions: abort with one dialog and an
unchanged store, or hand the unchanged store and answers to the next phase. -/
theorem run_phase_false_preserves (view real_views : Nat) (s : DtShortcut)
    (store : List DtShortcut) (labels : List Nat) (rest : List Bool) (prompts : Nat) :
    run_phase true false view real_views s store labels (false :: rest) prompts
      = Sum.inl ⟨false, store, prompts + 1⟩ ∨
    ∃ labels2, run_phase true false view real_views s store labels (false :: rest) prompts
      = Sum.inr (store, labels2, false :: rest, prompts) := by
  rw [run_phase]
  cases hf : store.findIdx? (fun e => shortcut_compare_func s e view == 0) with
  | none => right; exact ⟨labels, rfl⟩
  | some i =>
    simp only []
    exact scan_false_preserves view real_views s (store.length - i + 1) store i labels
      rest prompts

/-- C3: with confirmation enabled, if the first dialog of an insert_shortcut
call is answered "no", then whenever any dialog was shown at all the call
reports failure and the binding store is exactly what it was before the
call. -/
theorem insert_shortcut_decline_unchanged (viewsOf typeOf : Nat → Nat) (view : Nat)
    (rest : List Bool) (store : List DtShortcut) (sc : DtShortcut)
    (hp : (insert_shortcut viewsOf typeOf view true (false :: rest) store sc).prompts ≠ 0) :
    (insert_shortcut viewsOf typeOf view true (false :: rest) store sc).ok = false ∧
    (insert_shortcut viewsOf typeOf view true (false :: rest) store sc).store = store := by
  have key : ((insert_shortcut viewsOf typeOf view true (false :: rest) store sc).ok = false ∧
      (insert_shortcut viewsOf typeOf view true (false :: rest) store sc).store = store) ∨
      (insert_shortcut viewsOf typeOf view true (false :: rest) store sc).prompts = 0 := by
    rw [insert_shortcut]
    split
    · left; exact ⟨rfl, rfl⟩
    · rw [insert_loop]
      simp only [Bool.not_true]
      rcases run_phase_false_preserves view
          ({ sc with views := viewsOf sc.action } : DtShortcut).views
          { { sc with views := viewsOf sc.action } with
            views := ({ sc with views := viewsOf sc.action } : DtShortcut).views }
          store [] rest 0 with h1 | ⟨l1, h1⟩
      · rw [h1]
        left; exact ⟨rfl, rfl⟩
      · rw [h1]
        simp only []
        rcases run_phase_false_preserves view
            ({ sc with views := viewsOf sc.action } : DtShortcut).views
            { { sc with views := viewsOf sc.action } with
              views := ({ sc with views := viewsOf sc.action } : DtShortcut).views ^^^ view }
            store l1 rest 0 with h2 | ⟨l2, h2⟩
        · rw [h2]
          left; exact ⟨rfl, rfl⟩
        · rw [h2]
          simp only []
          by_cases hl : l2 = []
          · rw [if_neg (by simpa [hl])]
            right; rfl
          · rw [if_pos (by simpa using hl)]
            rw [show ((false :: rest).headD false) = false from rfl]
            rw [if_neg (by decide)]
            left; exact ⟨rfl, rfl⟩
  rcases key with h | h
  · exact h
  · exact absurd h hp

theorem insert_shortcut_decline_unchanged_witness :
    (insert_shortcut viewsOfT typeOfT 4 true [false] [keyBinding] keyBinding).ok = false ∧
    (insert_shortcut viewsOfT typeOfT 4 true [false] [keyBinding] keyBinding).store
      = [keyBinding] :=
  insert_shortcut_decline_unchanged viewsOfT typeOfT 4 [] [keyBinding] keyBinding (by decide)

/-! ### C6 and C7: multi-click upgrade and long press -/

/-- A pending timer whose deadline has not been reached does not fire. -/
theorem fire_due_notdue (t : Nat) (pr : List (Nat × Nat)) (kd k0 m0 f0 lt d : Nat)
    (h : ¬ (d ≤ t)) :
    fire_due t ⟨pr, kd, k0, m0, f0, lt, some d⟩ = (⟨pr, kd, k0, m0, f0, lt, some d⟩, []) := by
  rw [fire_due]
  simp only []
  rw [if_neg h]

/-- A press into an empty held set that does not qualify as a same-key repeat
resets the flag accumulator and records the key. -/
theorem key_press_empty_reset (delay id t key mods kd k0 m0 f0 lt : Nat) (tmo : Option Nat)
    (h : ¬ (id = kd ∧ key = k0 ∧ t < lt + delay ∧
        f0 &&& DT_SHORTCUT_FLAG_PRESS_TRIPLE = 0)) :
    dt_shortcut_key_press delay id t key mods ⟨[], kd, k0, m0, f0, lt, tmo⟩ =
      ⟨[(id, key)], id, key, mods, 0, t, none⟩ := by
  simp [dt_shortcut_key_press, h]

/-- A same-key repeat within the double-click interval, not yet at triple,
adds the double bit to the accumulator. -/
theorem key_press_empty_double (delay id t key mods kd k0 m0 f0 lt : Nat) (tmo : Option Nat)
    (h : id = kd ∧ key = k0 ∧ t < lt + delay ∧
        f0 &&& DT_SHORTCUT_FLAG_PRESS_TRIPLE = 0) :
    dt_shortcut_key_press delay id t key mods ⟨[], kd, k0, m0, f0, lt, tmo⟩ =
      ⟨[(id, key)], id, key, mods,
       (f0 + DT_SHORTCUT_FLAG_PRESS_DOUBLE) &&& DT_SHORTCUT_FLAG_PRESS_MASK, t, none⟩ := by
  simp [dt_shortcut_key_press, h]

/-- A matching release within the interval, not yet at triple, arms the
delayed finalize for the remaining interval. -/
theorem key_release_arm (delay id t key m0 f0 lt : Nat)
    (h1 : t - lt < delay) (h2 : f0 &&& DT_SHORTCUT_FLAG_PRESS_TRIPLE = 0) :
    dt_shortcut_key_release delay id t key ⟨[(id, key)], id, key, m0, f0, lt, none⟩ =
      (⟨[], id, key, m0, f0, lt, some (t + (delay - (t - lt)))⟩, []) := by
  simp [dt_shortcut_key_release, h1, h2]

/-- A matching release past the upgrade window but within the interval (or
already at triple), held at most the interval: finalize immediately and
dispatch the accumulated flags. -/
theorem key_release_final (delay id t key m0 f0 lt : Nat) (tmo : Option Nat)
    (h1 : ¬ (t - lt < delay ∧ f0 &&& DT_SHORTCUT_FLAG_PRESS_TRIPLE = 0))
    (h2 : ¬ (t - lt > delay)) :
    dt_shortcut_key_release delay id t key ⟨[(id, key)], id, key, m0, f0, lt, tmo⟩ =
      (⟨[], 0, 0, 0, 0, 0, none⟩, [⟨id, key, m0, f0⟩]) := by
  have h3 : ¬ (t - lt > 2 * delay) := by omega
  simp [dt_shortcut_key_release, h1, h2, key_up_delayed, decide_eq_false h3]

/-- A matching release held longer than the interval but at most twice the
interval: the long bit is added and the finalize dispatches. -/
theorem key_release_long (delay id t key m0 f0 lt : Nat) (tmo : Option Nat)
    (h1 : ¬ (t - lt < delay ∧ f0 &&& DT_SHORTCUT_FLAG_PRESS_TRIPLE = 0))
    (h2 : t - lt > delay) (h3 : ¬ (t - lt > 2 * delay)) :
    dt_shortcut_key_release delay id t key ⟨[(id, key)], id, key, m0, f0, lt, tmo⟩ =
      (⟨[], 0, 0, 0, 0, 0, none⟩, [⟨id, key, m0, f0 ||| DT_SHORTCUT_FLAG_PRESS_LONG⟩]) := by
  simp [dt_shortcut_key_release, h1, h2, key_up_delayed, decide_eq_false h3]

/-- A matching release held longer than twice the interval: the finalize runs
timed out and nothing is dispatched. -/
theorem key_release_timeout (delay id t key m0 f0 lt : Nat) (tmo : Option Nat)
    (h1 : ¬ (t - lt < delay ∧ f0 &&& DT_SHORTCUT_FLAG_PRESS_TRIPLE = 0))
    (h2 : t - lt > 2 * delay) :
    dt_shortcut_key_release delay id t key ⟨[(id, key)], id, key, m0, f0, lt, tmo⟩ =
      (⟨[], 0, 0, 0, 0, 0, none⟩, []) := by
  have h4 : t - lt > delay := by omega
  simp [dt_shortcut_key_release, h1, h4, key_up_delayed, decide_eq_true h2]

/-- Unfolding one event of the key_run fold. -/
theorem key_fold_step (delay : Nat) (st : KeyState) (log : List KeyDispatch)
    (e : KeyEvent) (es : List KeyEvent) (st2 : KeyState) (d2 : List KeyDispatch)
    (h : key_step delay st e = (st2, d2)) :
    (e :: es).foldl (fun acc x =>
        let r := key_step delay acc.1 x
        (r.1, acc.2 ++ r.2)) (st, log)
      = es.foldl (fun acc x =>
          let r := key_step delay acc.1 x
          (r.1, acc.2 ++ r.2)) (st2, log ++ d2) := by
  rw [List.foldl_cons]
  show es.foldl (fun acc x =>
      let r := key_step delay acc.1 x
      (r.1, acc.2 ++ r.2)) ((key_step delay st e).1, log ++ (key_step delay st e).2)
    = es.foldl (fun acc x =>
        let r := key_step delay acc.1 x
        (r.1, acc.2 ++ r.2)) (st2, log ++ d2)
  rw [h]

/-- C6: three same-key press/release cycles, each event within the
double-click interval of the matching earlier one, dispatch exactly one
shortcut, classified triple (not double twice). -/
theorem key_triple_press (delay id k m p1 r1 p2 r2 p3 r3 : Nat)
    (hk : k ≠ 0)
    (h1 : p1 < r1) (h2 : r1 < p2) (h3 : p2 < r2) (h4 : r2 < p3) (h5 : p3 < r3)
    (hd1 : p2 < p1 + delay) (hd2 : p3 < p2 + delay) (hd3 : r3 < p3 + delay) :
    (key_run delay [.press id p1 k m, .release id r1 k, .press id p2 k m,
      .release id r2 k, .press id p3 k m, .release id r3 k]).2
      = [⟨id, k, m, DT_SHORTCUT_FLAG_PRESS_TRIPLE⟩] := by
  have s1 : key_step delay initKeyState (.press id p1 k m)
      = (⟨[(id, k)], id, k, m, 0, p1, none⟩, []) := by
    show (dt_shortcut_key_press delay id p1 k m ⟨[], 0, 0, 0, 0, 0, none⟩, ([] : List KeyDispatch))
      = (⟨[(id, k)], id, k, m, 0, p1, none⟩, [])
    rw [key_press_empty_reset delay id p1 k m 0 0 0 0 0 none (fun hc => hk hc.2.1)]
  have s2 : key_step delay ⟨[(id, k)], id, k, m, 0, p1, none⟩ (.release id r1 k)
      = (⟨[], id, k, m, 0, p1, some (r1 + (delay - (r1 - p1)))⟩, []) := by
    show ((dt_shortcut_key_release delay id r1 k ⟨[(id, k)], id, k, m, 0, p1, none⟩).1,
        [] ++ (dt_shortcut_key_release delay id r1 k ⟨[(id, k)], id, k, m, 0, p1, none⟩).2)
      = (⟨[], id, k, m, 0, p1, some (r1 + (delay - (r1 - p1)))⟩, [])
    rw [key_release_arm delay id r1 k m 0 p1 (by omega) (by decide)]
    rfl
  have s3 : key_step delay ⟨[], id, k, m, 0, p1, some (r1 + (delay - (r1 - p1)))⟩
      (.press id p2 k m)
      = (⟨[(id, k)], id, k, m, DT_SHORTCUT_FLAG_PRESS_DOUBLE, p2, none⟩, []) := by
    show ((dt_shortcut_key_press delay id p2 k m
        (fire_due p2 ⟨[], id, k, m, 0, p1, some (r1 + (delay - (r1 - p1)))⟩).1),
        (fire_due p2 ⟨[], id, k, m, 0, p1, some (r1 + (delay - (r1 - p1)))⟩).2)
      = (⟨[(id, k)], id, k, m, DT_SHORTCUT_FLAG_PRESS_DOUBLE, p2, none⟩, [])
    rw [fire_due_notdue p2 [] id k m 0 p1 (r1 + (delay - (r1 - p1))) (by omega)]
    rw [key_press_empty_double delay id p2 k m id k m 0 p1 (some (r1 + (delay - (r1 - p1))))
        ⟨rfl, rfl, by omega, by decide⟩]
    rfl
  have s4 : key_step delay ⟨[(id, k)], id, k, m, DT_SHORTCUT_FLAG_PRESS_DOUBLE, p2, none⟩
      (.release id r2 k)
      = (⟨[], id, k, m, DT_SHORTCUT_FLAG_PRESS_DOUBLE, p2,
          some (r2 + (delay - (r2 - p2)))⟩, []) := by
    show ((dt_shortcut_key_release delay id r2 k
        ⟨[(id, k)], id, k, m, DT_SHORTCUT_FLAG_PRESS_DOUBLE, p2, none⟩).1,
        [] ++ (dt_shortcut_key_release delay id r2 k
          ⟨[(id, k)], id, k, m, DT_SHORTCUT_FLAG_PRESS_DOUBLE, p2, none⟩).2)
      = (⟨[], id, k, m, DT_SHORTCUT_FLAG_PRESS_DOUBLE, p2, some (r2 + (delay - (r2 - p2)))⟩, [])
    rw [key_release_arm delay id r2 k m DT_SHORTCUT_FLAG_PRESS_DOUBLE p2 (by omega) (by decide)]
    rfl
  have s5 : key_step delay ⟨[], id, k, m, DT_SHORTCUT_FLAG_PRESS_DOUBLE, p2,
      some (r2 + (delay - (r2 - p2)))⟩ (.press id p3 k m)
      = (⟨[(id, k)], id, k, m, DT_SHORTCUT_FLAG_PRESS_TRIPLE, p3, none⟩, []) := by
    show ((dt_shortcut_key_press delay id p3 k m
        (fire_due p3 ⟨[], id, k, m, DT_SHORTCUT_FLAG_PRESS_DOUBLE, p2,
          some (r2 + (delay - (r2 - p2)))⟩).1),
        (fire_due p3 ⟨[], id, k, m, DT_SHORTCUT_FLAG_PRESS_DOUBLE, p2,
          some (r2 + (delay - (r2 - p2)))⟩).2)
      = (⟨[(id, k)], id, k, m, DT_SHORTCUT_FLAG_PRESS_TRIPLE, p3, none⟩, [])
    rw [fire_due_notdue p3 [] id k m DT_SHORTCUT_FLAG_PRESS_DOUBLE p2
        (r2 + (delay - (r2 - p2))) (by omega)]
    rw [key_press_empty_double delay id p3 k m id k m DT_SHORTCUT_FLAG_PRESS_DOUBLE p2
        (some (r2 + (delay - (r2 - p2)))) ⟨rfl, rfl, by omega, by decide⟩]
    rfl
  have s6 : key_step delay ⟨[(id, k)], id, k, m, DT_SHORTCUT_FLAG_PRESS_TRIPLE, p3, none⟩
      (.release id r3 k)
      = (⟨[], 0, 0, 0, 0, 0, none⟩, [⟨id, k, m, DT_SHORTCUT_FLAG_PRESS_TRIPLE⟩]) := by
    show ((dt_shortcut_key_release delay id r3 k
        ⟨[(id, k)], id, k, m, DT_SHORTCUT_FLAG_PRESS_TRIPLE, p3, none⟩).1,
        [] ++ (dt_shortcut_key_release delay id r3 k
          ⟨[(id, k)], id, k, m, DT_SHORTCUT_FLAG_PRESS_TRIPLE, p3, none⟩).2)
      = (⟨[], 0, 0, 0, 0, 0, none⟩, [⟨id, k, m, DT_SHORTCUT_FLAG_PRESS_TRIPLE⟩])
    rw [key_release_final delay id r3 k m DT_SHORTCUT_FLAG_PRESS_TRIPLE p3 none
        (fun hc => absurd hc.2 (by decide)) (by omega)]
    rfl
  have hfold : [KeyEvent.press id p1 k m, .release id r1 k, .press id p2 k m,
      .release id r2 k, .press id p3 k m, .release id r3 k].foldl (fun acc e =>
        let r := key_step delay acc.1 e
        (r.1, acc.2 ++ r.2)) (initKeyState, [])
      = (⟨[], 0, 0, 0, 0, 0, none⟩, [⟨id, k, m, DT_SHORTCUT_FLAG_PRESS_TRIPLE⟩]) := by
    rw [key_fold_step _ _ _ _ _ _ _ s1]
    rw [key_fold_step _ _ _ _ _ _ _ s2]
    rw [key_fold_step _ _ _ _ _ _ _ s3]
    rw [key_fold_step _ _ _ _ _ _ _ s4]
    rw [key_fold_step _ _ _ _ _ _ _ s5]
    rw [key_fold_step _ _ _ _ _ _ _ s6]
    rw [List.foldl_nil]
    rfl
  rw [key_run, hfold]

theorem key_triple_press_witness :
    (key_run 10 [.press 1 0 5 3, .release 1 2 5, .press 1 4 5 3,
      .release 1 6 5, .press 1 9 5 3, .release 1 12 5]).2
      = [⟨1, 5, 3, DT_SHORTCUT_FLAG_PRESS_TRIPLE⟩] :=
  key_triple_press 10 1 5 3 0 2 4 6 9 12 (by decide) (by decide) (by decide) (by decide)
    (by decide) (by decide) (by decide) (by decide) (by decide)

/-- C7 (amended): a single press/release cycle of a fresh key held longer
than the double-click interval is classified long and dispatched only when
the hold is at most twice the interval; past twice the interval the
finalize runs timed out and nothing is dispatched. -/
theorem key_long_press (delay id k m p r : Nat) (hk : k ≠ 0) (hd : delay < r - p) :
    (key_run delay [.press id p k m, .release id r k]).2 =
      if r - p ≤ 2 * delay then [⟨id, k, m, DT_SHORTCUT_FLAG_PRESS_LONG⟩] else [] := by
  have s1 : key_step delay initKeyState (.press id p k m)
      = (⟨[(id, k)], id, k, m, 0, p, none⟩, []) := by
    show (dt_shortcut_key_press delay id p k m ⟨[], 0, 0, 0, 0, 0, none⟩,
        ([] : List KeyDispatch)) = (⟨[(id, k)], id, k, m, 0, p, none⟩, [])
    rw [key_press_empty_reset delay id p k m 0 0 0 0 0 none (fun hc => hk hc.2.1)]
  by_cases h2 : r - p ≤ 2 * delay
  · have s2 : key_step delay ⟨[(id, k)], id, k, m, 0, p, none⟩ (.release id r k)
        = (⟨[], 0, 0, 0, 0, 0, none⟩, [⟨id, k, m, DT_SHORTCUT_FLAG_PRESS_LONG⟩]) := by
      show ((dt_shortcut_key_release delay id r k ⟨[(id, k)], id, k, m, 0, p, none⟩).1,
          [] ++ (dt_shortcut_key_release delay id r k ⟨[(id, k)], id, k, m, 0, p, none⟩).2)
        = (⟨[], 0, 0, 0, 0, 0, none⟩, [⟨id, k, m, DT_SHORTCUT_FLAG_PRESS_LONG⟩])
      rw [key_release_long delay id r k m 0 p none (fun hc => absurd hc.1 (by omega))
          (by omega) (by omega)]
      rfl
    have hfold : [KeyEvent.press id p k m, .release id r k].foldl (fun acc e =>
        let r := key_step delay acc.1 e
        (r.1, acc.2 ++ r.2)) (initKeyState, [])
        = (⟨[], 0, 0, 0, 0, 0, none⟩, [⟨id, k, m, DT_SHORTCUT_FLAG_PRESS_LONG⟩]) := by
      rw [key_fold_step _ _ _ _ _ _ _ s1]
      rw [key_fold_step _ _ _ _ _ _ _ s2]
      rw [List.foldl_nil]
      rfl
    rw [key_run, hfold, if_pos h2]
  · have s2 : key_step delay ⟨[(id, k)], id, k, m, 0, p, none⟩ (.release id r k)
        = (⟨[], 0, 0, 0, 0, 0, none⟩, []) := by
      show ((dt_shortcut_key_release delay id r k ⟨[(id, k)], id, k, m, 0, p, none⟩).1,
          [] ++ (dt_shortcut_key_release delay id r k ⟨[(id, k)], id, k, m, 0, p, none⟩).2)
        = (⟨[], 0, 0, 0, 0, 0, none⟩, [])
      rw [key_release_timeout delay id r k m 0 p none (fun hc => absurd hc.1 (by omega))
          (by omega)]
      rfl
    have hfold : [KeyEvent.press id p k m, .release id r k].foldl (fun acc e =>
        let r := key_step delay acc.1 e
        (r.1, acc.2 ++ r.2)) (initKeyState, [])
        = (⟨[], 0, 0, 0, 0, 0, none⟩, []) := by
      rw [key_fold_step _ _ _ _ _ _ _ s1]
      rw [key_fold_step _ _ _ _ _ _ _ s2]
      rw [List.foldl_nil]
      rfl
    rw [key_run, hfold, if_neg h2]

/-- C7: counterexample to both halves of the claim.  A double-click whose
second hold lasts between one and two intervals dispatches with the double
and long bits combined (flags 5), and a single hold longer than twice the
interval dispatches nothing at all rather than a long press. -/
theorem key_long_press_claim_counterexample :
    (key_run 10 [.press 1 0 5 0, .release 1 3 5, .press 1 6 5 0, .release 1 21 5]).2
      = [⟨1, 5, 0, DT_SHORTCUT_FLAG_PRESS_DOUBLE ||| DT_SHORTCUT_FLAG_PRESS_LONG⟩] ∧
    (key_run 10 [.press 1 0 5 0, .release 1 25 5]).2 = [] := by decide

theorem key_long_press_witness :
    (key_run 10 [.press 1 0 5 3, .release 1 15 5]).2
      = [⟨1, 5, 3, DT_SHORTCUT_FLAG_PRESS_LONG⟩] ∧
    (key_run 10 [.press 1 0 5 3, .release 1 25 5]).2 = [] := by
  constructor
  · have h := key_long_press 10 1 5 3 0 15 (by decide) (by decide)
    simpa using h
  · have h := key_long_press 10 1 5 3 0 25 (by decide) (by decide)
    simpa using h

end Accel
